import Mathlib

/-!
Verification of the jscal calendar library (Go) against its specification.

The Go sources are shallowly embedded: pure Go functions become Lean
functions over `List Char` / `String`, `Int` (for `time.Duration`
nanosecond counts and other machine integers) and `Option`/`Except`
(for Go nil pointers and `error` returns).  Go `float64` arithmetic in
the duration codec is modelled by exact arithmetic on scanned decimal
mantissas (`m / 10^k`); on the inputs appearing in the theorems below
every intermediate Go float value is an integer far below 2^53, where
float64 arithmetic is exact, so the model agrees with the Go code there.
-/

deriving instance DecidableEq for Except

namespace JSCal

/-! ## Character and digit utilities (models of Go byte/string helpers) -/

/-- ASCII decimal digit test. -/
def isDig (c : Char) : Bool := '0' ≤ c && c ≤ '9'

/-- The decimal digit character for `d` (0-9); model of the byte `'0' + d`. -/
def digCh : Nat → Char
  | 0 => '0' | 1 => '1' | 2 => '2' | 3 => '3' | 4 => '4'
  | 5 => '5' | 6 => '6' | 7 => '7' | 8 => '8' | _ => '9'

/-- Numeric value of a digit character. -/
def digVal (c : Char) : Nat := c.toNat - 48

/-- Value of a big-endian list of decimal digit characters. -/
def digitsVal (cs : List Char) : Nat := cs.foldl (fun a c => 10 * a + digVal c) 0

/-- Fuel-driven decimal printer (big-endian digits of `n`). -/
def natDigitsGo : Nat → Nat → List Char
  | 0, _ => []
  | fuel + 1, n => if n < 10 then [digCh n] else natDigitsGo fuel (n / 10) ++ [digCh (n % 10)]

/-- Decimal digits of `n`; model of Go `fmt.Sprintf` with verb percent-d on a `Nat`. -/
def natDigits (n : Nat) : List Char := natDigitsGo (n + 1) n

/-- Model of Go `fmt.Sprintf` with verb percent-d on a (possibly negative) integer. -/
def intDigits (i : Int) : List Char :=
  if i < 0 then '-' :: natDigits i.natAbs else natDigits i.natAbs

/-- Index of the first occurrence of `c`; model of Go `strings.Index`
(which returns -1 when absent, modelled by `none`). -/
def idxOf? (c : Char) : List Char → Option Nat
  | [] => none
  | x :: r => if x = c then some 0 else (idxOf? c r).map (· + 1)

/-! ## Duration codec

`parseISO8601Duration` is translated from `duration.go`;
`formatISO8601Duration` from `convert/ical/converter.go`. -/

/-- Model of Go `fmt.Sscanf(s, "%f", &x)` on the prefix-scanned token:
optional sign, integer digits, optional fraction digits.  The scanned
value is `m / 10^k` for the returned pair `(m, k)`; `none` models a
failed scan (`n == 0`).  (The Go scanner also accepts exponent forms,
which never arise in this development.) -/
def scanFloat (cs : List Char) : Option (Int × Nat) :=
  let sign : Int := if cs.head? = some '-' then -1 else 1
  let cs1 := if cs.head? = some '-' ∨ cs.head? = some '+' then cs.tail else cs
  let intDs := cs1.takeWhile isDig
  let rest1 := cs1.dropWhile isDig
  let fracDs := if rest1.head? = some '.' then rest1.tail.takeWhile isDig else []
  if intDs.isEmpty && fracDs.isEmpty then none
  else some (sign * ((digitsVal intDs : Int) * 10 ^ fracDs.length + (digitsVal fracDs : Int)),
             fracDs.length)

def nsPerSecond : Int := 1000000000
def nsPerMinute : Int := 60000000000
def nsPerHour : Int := 3600000000000
def nsPerDay : Int := 86400000000000

/-- One unit contribution of `duration.go`: scan the payload before a unit
letter and convert `value * unitNs` to nanoseconds.  Go computes
`time.Duration(x * float64(unit))`, a float multiply followed by
truncation toward zero; with `x = m / 10^k` this is `(m * unitNs).tdiv (10^k)`
whenever the float arithmetic is exact. -/
def contribDur (payload : List Char) (unitNs : Int) : Int :=
  match scanFloat payload with
  | some (m, k) => Int.tdiv (m * unitNs) ((10 : Int) ^ k)
  | none => 0

/-- One `if idx := strings.Index(remaining, unit); idx >= 0` block of
`parseISO8601Duration`: the contribution of the unit and the remaining
input after the unit letter. -/
def durStep (u : Char) (unitNs : Int) (rem : List Char) : Int × List Char :=
  match idxOf? u rem with
  | some idx => (contribDur (rem.take idx) unitNs, rem.drop (idx + 1))
  | none => (0, rem)

/-- The date portion (Y, M, W, D) of `parseISO8601Duration`.  (The Go D
block leaves `remaining` unchanged; only the contribution is used.) -/
def parseDateUnits (datePart : List Char) : Int :=
  let sy := durStep 'Y' (365 * nsPerDay) datePart
  let sm := durStep 'M' (30 * nsPerDay) sy.2
  let sw := durStep 'W' (7 * nsPerDay) sm.2
  let sd := durStep 'D' nsPerDay sw.2
  sy.1 + sm.1 + sw.1 + sd.1

/-- The time portion (H, M, S) of `parseISO8601Duration`. -/
def parseTimeUnits (timePart : List Char) : Int :=
  let sh := durStep 'H' nsPerHour timePart
  let sm := durStep 'M' nsPerMinute sh.2
  let ss := durStep 'S' nsPerSecond sm.2
  sh.1 + sm.1 + ss.1

/-- Translation of `parseISO8601Duration` (duration.go): ISO 8601 duration
literal to a nanosecond count (Go `time.Duration`). -/
def parseDurChars (cs : List Char) : Except String Int :=
  if cs.isEmpty then Except.error ("invalid ISO 8601 duration: empty string")
  else
    let cs1 := if cs.head? = some '-' then cs.tail else cs
    match cs1 with
    | 'P' :: cs2 =>
      if cs2.isEmpty then Except.ok 0
      else
        let dparts :=
          match idxOf? 'T' cs2 with
          | some i => (cs2.take i, cs2.drop (i + 1))
          | none => (cs2, ([] : List Char))
        let result :=
          (if dparts.1.isEmpty then 0 else parseDateUnits dparts.1)
          + (if dparts.2.isEmpty then 0 else parseTimeUnits dparts.2)
        Except.ok (if cs.head? = some '-' then -result else result)
    | _ => Except.error ("invalid ISO 8601 duration: must start with P")

def parseISO8601Duration (s : String) : Except String Int := parseDurChars s.toList

/-- Model of Go `fmt.Sprintf` with verb `%.0f` applied to `a / b` (`b > 0`):
round half to even, then print.  In the uses below `a` is nonnegative. -/
def fmtF0 (a b : Int) : List Char :=
  let q := a / b
  let r := a % b
  let rounded := if 2 * r < b then q else if b < 2 * r then q + 1
                 else if q % 2 = 0 then q else q + 1
  intDigits rounded

/-- Translation of `formatISO8601Duration` (convert/ical/converter.go).
`int(d.Hours() / 24)` etc. are float divisions followed by truncation
toward zero, modelled exactly by `Int.tdiv`. -/
def formatDurChars (d : Int) : List Char :=
  if d = 0 then ['P', 'T', '0', 'S']
  else
    let days := Int.tdiv d nsPerDay
    let p1 := if 0 < days then 'P' :: (intDigits days ++ ['D']) else ['P']
    let d1 := if 0 < days then d - days * nsPerDay else d
    if 0 < d1 then
      let hours := Int.tdiv d1 nsPerHour
      let p2 := if 0 < hours then intDigits hours ++ ['H'] else []
      let d2 := if 0 < hours then d1 - hours * nsPerHour else d1
      let minutes := Int.tdiv d2 nsPerMinute
      let p3 := if 0 < minutes then intDigits minutes ++ ['M'] else []
      let d3 := if 0 < minutes then d2 - minutes * nsPerMinute else d2
      let p4 := if 0 < d3 then fmtF0 d3 nsPerSecond ++ ['S'] else []
      p1 ++ 'T' :: (p2 ++ p3 ++ p4)
    else p1

def formatISO8601Duration (d : Int) : String := String.mk (formatDurChars d)

/-! ## LocalDateTime codec

Translated from the `LocalDateTime` source file: a wall-clock value
wrapping a Go `time.Time`.  The model stores the seven calendar fields
that every accessor and comparison of the Go type reads; the location
carried by the underlying `time.Time` only ever influences the zone
suffix emitted by `Format(RFC3339Nano)`, and `String` removes that
suffix in each of its three branches, so the model presents the UTC
form of the suffix to the faithful strip code. -/

structure LocalDateTime where
  year : Int
  month : Nat
  day : Nat
  hour : Nat
  minute : Nat
  second : Nat
  nanosecond : Nat
deriving DecidableEq

/-- The Go `time.Time{}` zero value: January 1, year 1, 00:00:00. -/
def zeroMoment : LocalDateTime := ⟨1, 1, 1, 0, 0, 0, 0⟩

/-- Leap-year rule of the Go `time` package. -/
def isLeap (y : Int) : Bool := y % 4 = 0 && (y % 100 ≠ 0 || y % 400 = 0)

/-- Length of a month, as validated by Go `time.Parse` / used by `time.Date`. -/
def daysInMonth (y : Int) (m : Nat) : Nat :=
  if m = 2 then (if isLeap y then 29 else 28)
  else if m = 4 ∨ m = 6 ∨ m = 9 ∨ m = 11 then 30 else 31

/-- Canonical wall-clock fields: the invariant satisfied by every value
obtained from a Go `time.Time`. -/
def LocalDateTime.Valid (t : LocalDateTime) : Prop :=
  1 ≤ t.month ∧ t.month ≤ 12 ∧ 1 ≤ t.day ∧ t.day ≤ daysInMonth t.year t.month ∧
  t.hour ≤ 23 ∧ t.minute ≤ 59 ∧ t.second ≤ 59 ∧ t.nanosecond ≤ 999999999

instance (t : LocalDateTime) : Decidable t.Valid := by
  unfold LocalDateTime.Valid; infer_instance

/-- Days since 1970-01-01 of a civil date (standard era-based algorithm);
models the absolute-day computation inside Go `time.Date`. -/
def daysFromCivil (y : Int) (m d : Nat) : Int :=
  let y1 := if m ≤ 2 then y - 1 else y
  let era := Int.fdiv y1 400
  let yoe := y1 - era * 400
  let mp : Int := (m : Int) + (if m ≤ 2 then 9 else -3)
  let doy := (153 * mp + 2) / 5 + (d : Int) - 1
  let doe := yoe * 365 + yoe / 4 - yoe / 100 + doy
  era * 146097 + doe - 719468

/-- The instant (in nanoseconds from the epoch) denoted by wall-clock
fields read in UTC; models `time.Date(..., time.UTC)` as used by
`LocalDateTime.Before` / `After`. -/
def LocalDateTime.toAbs (t : LocalDateTime) : Int :=
  daysFromCivil t.year t.month t.day * nsPerDay
    + t.hour * nsPerHour + t.minute * nsPerMinute
    + t.second * nsPerSecond + t.nanosecond

/-- `LocalDateTime.Time`: a nil receiver yields the zero `time.Time`. -/
def ldtTime : Option LocalDateTime → LocalDateTime
  | none => zeroMoment
  | some t => t

/-- `LocalDateTime.IsZero`: nil receiver counts as zero. -/
def ldtIsZero : Option LocalDateTime → Bool
  | none => true
  | some t => t = zeroMoment

/-- `LocalDateTime.Equal`: when either operand is nil Go compares the two
pointers themselves (`ldt == other`); otherwise the seven wall-clock
fields are compared. -/
def ldtEqual : Option LocalDateTime → Option LocalDateTime → Bool
  | none, none => true
  | none, some _ => false
  | some _, none => false
  | some a, some b => a = b

/-- `LocalDateTime.Before`: `false` when either operand is nil, else the
two field tuples are rebuilt in UTC and the instants compared. -/
def ldtBefore : Option LocalDateTime → Option LocalDateTime → Bool
  | some a, some b => a.toAbs < b.toAbs
  | _, _ => false

/-- `LocalDateTime.After`, dual to `Before`. -/
def ldtAfter : Option LocalDateTime → Option LocalDateTime → Bool
  | some a, some b => b.toAbs < a.toAbs
  | _, _ => false

/-- Two-digit zero-padded field (Go layout `01`, `02`, `15`, `04`, `05`). -/
def pad2 (n : Nat) : List Char := [digCh (n / 10), digCh (n % 10)]

/-- Year of Go layout `2006`: zero-padded to four digits, full decimal
expansion beyond 9999. -/
def pad4 (n : Nat) : List Char :=
  if n < 10000 then [digCh (n / 1000), digCh (n / 100 % 10), digCh (n / 10 % 10), digCh (n % 10)]
  else natDigits n

/-- Signed year as printed by Go `Format`. -/
def yearChars (y : Int) : List Char :=
  if y < 0 then '-' :: pad4 y.natAbs else pad4 y.natAbs

/-- Drop trailing `'0'` characters. -/
def stripZeros (cs : List Char) : List Char := (cs.reverse.dropWhile (· = '0')).reverse

/-- Nine-digit zero-padded nanosecond field. -/
def pad9 (n : Nat) : List Char :=
  [digCh (n / 100000000 % 10), digCh (n / 10000000 % 10), digCh (n / 1000000 % 10),
   digCh (n / 100000 % 10), digCh (n / 10000 % 10), digCh (n / 1000 % 10),
   digCh (n / 100 % 10), digCh (n / 10 % 10), digCh (n % 10)]

/-- Fractional-second text of Go layout `.999999999`: omitted when zero,
else a point followed by the nanoseconds with trailing zeros removed. -/
def fracChars (ns : Nat) : List Char :=
  if ns = 0 then [] else '.' :: stripZeros (pad9 ns)

/-- `Format(time.RFC3339Nano)` of the wall-clock fields, suffix in its
UTC form (see the section comment). -/
def fmtRFC3339NanoUTC (t : LocalDateTime) : List Char :=
  yearChars t.year ++ '-' :: pad2 t.month ++ '-' :: pad2 t.day
    ++ 'T' :: pad2 t.hour ++ ':' :: pad2 t.minute ++ ':' :: pad2 t.second
    ++ fracChars t.nanosecond ++ ['Z']

/-- Index of the last occurrence of `c`; model of Go `strings.LastIndex`. -/
def lastIdxOf? (c : Char) : List Char → Option Nat
  | [] => none
  | x :: r =>
    match lastIdxOf? c r with
    | some i => some (i + 1)
    | none => if x = c then some 0 else none

/-- The `strings.LastIndex(s, "-") > 10` branch of `LocalDateTime.String`. -/
def stripMinusZone (cs : List Char) : List Char :=
  match lastIdxOf? '-' cs with
  | some i => if 10 < i then cs.take i else cs
  | none => cs

/-- The zone-suffix removal of `LocalDateTime.String`. -/
def stripZone (cs : List Char) : List Char :=
  if cs.getLast? = some 'Z' then cs.dropLast
  else
    match lastIdxOf? '+' cs with
    | some i => if 0 < i then cs.take i else stripMinusZone cs
    | none => stripMinusZone cs

/-- `LocalDateTime.String`: RFC3339Nano text with the zone suffix stripped. -/
def ldtStringChars (t : LocalDateTime) : List Char := stripZone (fmtRFC3339NanoUTC t)

def ldtString (t : LocalDateTime) : String := String.mk (ldtStringChars t)

/-- Fixed-width two-digit number of Go `time.Parse` (layouts `01` … `05`). -/
def read2 : List Char → Option (Nat × List Char)
  | c1 :: c2 :: r =>
    if isDig c1 && isDig c2 then some (10 * digVal c1 + digVal c2, r) else none
  | _ => none

/-- Fixed-width four-digit year of Go `time.Parse` (layout `2006`). -/
def read4 : List Char → Option (Nat × List Char)
  | c1 :: c2 :: c3 :: c4 :: r =>
    if isDig c1 && isDig c2 && isDig c3 && isDig c4 then
      some (1000 * digVal c1 + 100 * digVal c2 + 10 * digVal c3 + digVal c4, r)
    else none
  | _ => none

/-- A literal layout character. -/
def lit (c : Char) : List Char → Option (List Char)
  | x :: r => if x = c then some r else none
  | [] => none

/-- The shared `2006-01-02T15:04:05` portion of the four layouts tried by
`ParseLocalDateTime`. -/
def scanDateTime (cs : List Char) : Option ((Nat × Nat × Nat × Nat × Nat × Nat) × List Char) := do
  let (y, r1) ← read4 cs
  let r2 ← lit '-' r1
  let (mo, r3) ← read2 r2
  let r4 ← lit '-' r3
  let (d, r5) ← read2 r4
  let r6 ← lit 'T' r5
  let (h, r7) ← read2 r6
  let r8 ← lit ':' r7
  let (mi, r9) ← read2 r8
  let r10 ← lit ':' r9
  let (s, r11) ← read2 r10
  pure ((y, mo, d, h, mi, s), r11)

/-- Optional fractional seconds of layout `.999999999`: consumed only when
a point directly followed by a digit is present; at most nine digits. -/
def scanFrac : List Char → Option (Nat × List Char)
  | '.' :: c :: r =>
    if isDig c then
      let ds := ((c :: r).takeWhile isDig).take 9
      some (digitsVal ds * 10 ^ (9 - ds.length), (c :: r).drop ds.length)
    else some (0, '.' :: c :: r)
  | cs => some (0, cs)

/-- Numeric offset of layout `Z07:00` after the sign. -/
def scanOffs (cs : List Char) : Option (List Char) := do
  let (_, r1) ← read2 cs
  let r2 ← lit ':' r1
  let (_, r3) ← read2 r2
  pure r3

/-- Zone of layout `Z07:00`: `Z` for UTC or a signed `hh:mm` offset. -/
def scanZone : List Char → Option (List Char)
  | [] => none
  | c :: r => if c = 'Z' then some r else if c = '+' ∨ c = '-' then scanOffs r else none

/-- Field range validation performed by Go `time.Parse` before returning. -/
def mkValidated (y mo d h mi s ns : Nat) : Option LocalDateTime :=
  if 1 ≤ mo ∧ mo ≤ 12 ∧ 1 ≤ d ∧ d ≤ daysInMonth (y : Int) mo ∧ h ≤ 23 ∧ mi ≤ 59 ∧ s ≤ 59 then
    some ⟨(y : Int), mo, d, h, mi, s, ns⟩
  else none

/-- `time.Parse` with layout `time.RFC3339` (no fraction, zone required). -/
def parseLayoutRFC3339 (cs : List Char) : Option LocalDateTime := do
  let (f, r) ← scanDateTime cs
  let r2 ← scanZone r
  if r2.isEmpty then mkValidated f.1 f.2.1 f.2.2.1 f.2.2.2.1 f.2.2.2.2.1 f.2.2.2.2.2 0
  else none

/-- `time.Parse` with layout `time.RFC3339Nano` (optional fraction, zone required). -/
def parseLayoutRFC3339Nano (cs : List Char) : Option LocalDateTime := do
  let (f, r) ← scanDateTime cs
  let (ns, r1) ← scanFrac r
  let r2 ← scanZone r1
  if r2.isEmpty then mkValidated f.1 f.2.1 f.2.2.1 f.2.2.2.1 f.2.2.2.2.1 f.2.2.2.2.2 ns
  else none

/-- `time.Parse` with layout `2006-01-02T15:04:05` (no zone, no fraction). -/
def parseLayoutPlain (cs : List Char) : Option LocalDateTime := do
  let (f, r) ← scanDateTime cs
  if r.isEmpty then mkValidated f.1 f.2.1 f.2.2.1 f.2.2.2.1 f.2.2.2.2.1 f.2.2.2.2.2 0
  else none

/-- `time.Parse` with layout `2006-01-02T15:04:05.999999999`. -/
def parseLayoutPlainFrac (cs : List Char) : Option LocalDateTime := do
  let (f, r) ← scanDateTime cs
  let (ns, r1) ← scanFrac r
  if r1.isEmpty then mkValidated f.1 f.2.1 f.2.2.1 f.2.2.2.1 f.2.2.2.2.1 f.2.2.2.2.2 ns
  else none

/-- Translation of `ParseLocalDateTime`: append `Z` when the string
carries no zone hint at all (and looks like a date-time), then try the
four layouts in order. -/
def parseLDTChars (cs : List Char) : Except String LocalDateTime :=
  let cs1 :=
    if !cs.contains 'Z' && !cs.contains '+' && !cs.contains '-' && cs.contains 'T'
    then cs ++ ['Z'] else cs
  match parseLayoutRFC3339 cs1 <|> parseLayoutRFC3339Nano cs1
        <|> parseLayoutPlain cs1 <|> parseLayoutPlainFrac cs1 with
  | some t => Except.ok t
  | none => Except.error ("invalid LocalDateTime format: " ++ String.mk cs1)

def ParseLocalDateTime (s : String) : Except String LocalDateTime := parseLDTChars s.toList

example : ldtString ⟨2025, 3, 15, 10, 0, 0, 0⟩ = "2025-03-15T10:00:00" := by decide
example : ParseLocalDateTime "2025-03-15T10:00:00" = Except.ok ⟨2025, 3, 15, 10, 0, 0, 0⟩ := by
  decide
example : ldtString ⟨2025, 3, 15, 10, 0, 0, 500000000⟩ = "2025-03-15T10:00:00.5" := by decide
example : ParseLocalDateTime "2025-03-15T10:00:00.5"
    = Except.ok ⟨2025, 3, 15, 10, 0, 0, 500000000⟩ := by decide
example : ldtString ⟨10000, 1, 1, 0, 0, 0, 0⟩ = "10000-01-01T00:00:00" := by decide
example : ParseLocalDateTime "10000-01-01T00:00:00"
    = Except.error ("invalid LocalDateTime format: 10000-01-01T00:00:00") := by decide
example : ParseLocalDateTime "2025-01-02T03:04:05Z" = Except.ok ⟨2025, 1, 2, 3, 4, 5, 0⟩ := by
  decide
example : ldtBefore (some zeroMoment) (some ⟨2020, 1, 2, 3, 4, 5, 6⟩) = true := by decide
example : ldtBefore none (some ⟨2020, 1, 2, 3, 4, 5, 6⟩) = false := by decide

/-! ## Shared validation infrastructure (validate.go and types.go)

Go `map[string]T` fields are modelled as association lists (iteration
order abstracted), `*T` pointers as `Option T`.  The `Value` member of
the Go `ValidationError` struct is an `interface{}` holding the
offending value; no theorem inspects it and it is omitted here. -/

structure ValidationError where
  field : String
  message : String
deriving DecidableEq

def MaxTitleLength : Nat := 1024
def MaxDescriptionLength : Nat := 32768
def MaxUIDLength : Nat := 255

/-- ASCII upper-casing; model of Go `strings.ToUpper` on the ASCII
strings arising in this development. -/
def goUpper (s : String) : String := String.mk (s.toList.map Char.toUpper)

/-- ASCII lower-casing; model of Go `strings.ToLower` likewise. -/
def goLower (s : String) : String := String.mk (s.toList.map Char.toLower)

/-- `p` is an initial segment of the second list. -/
def listStarts : List Char → List Char → Bool
  | [], _ => true
  | _ :: _, [] => false
  | p :: ps, c :: cs => p = c && listStarts ps cs

/-- One optional `\d+(\.\d+)?<unit>` group of the duration regular
expression: consume a maximal digit run, an optional `.`-plus-digit-run
fraction, then the unit letter, or consume nothing. -/
def chompNumUnit (u : Char) (cs : List Char) : List Char :=
  let ds := cs.takeWhile isDig
  if ds.isEmpty then cs
  else
    let rest := cs.drop ds.length
    let rest2 :=
      match rest with
      | '.' :: r2 =>
        let fs := r2.takeWhile isDig
        if fs.isEmpty then rest else r2.drop fs.length
      | _ => rest
    match rest2 with
    | x :: r3 => if x = u then r3 else cs
    | [] => cs

/-- `durationPattern` (validate.go line 20): the anchored regular expression
`-?P(\d+(\.\d+)?Y)?(\d+(\.\d+)?M)?(\d+(\.\d+)?W)?(\d+(\.\d+)?D)?`
`(T(\d+(\.\d+)?H)?(\d+(\.\d+)?M)?(\d+(\.\d+)?S)?)?` (each group
non-capturing). No unit letter is a digit or a dot, so each optional
group matches at a given position in at most one way, and a group that
matches must be taken (nothing else can consume its trailing unit
letter); hence the backtracking search is equivalent to this
deterministic greedy matcher. -/
def durationPatternMatch (cs : List Char) : Bool :=
  let cs1 := match cs with
    | '-' :: r => r
    | _ => cs
  match cs1 with
  | 'P' :: r =>
    let r1 := chompNumUnit 'Y' r
    let r2 := chompNumUnit 'M' r1
    let r3 := chompNumUnit 'W' r2
    let r4 := chompNumUnit 'D' r3
    let r5 :=
      match r4 with
      | 'T' :: rt =>
        let t1 := chompNumUnit 'H' rt
        let t2 := chompNumUnit 'M' t1
        chompNumUnit 'S' t2
      | _ => r4
    r5.isEmpty
  | _ => false

/-- `timezonePattern`: `^[A-Za-z0-9/_+-]+$`. -/
def timezonePatternMatch (cs : List Char) : Bool :=
  !cs.isEmpty && cs.all (fun c => c.isAlpha || c.isDigit || c = '/' || c = '_' || c = '+' || c = '-')

def isHexDig (c : Char) : Bool := c.isDigit || ('a' ≤ c && c ≤ 'f') || ('A' ≤ c && c ≤ 'F')

/-- `colorPattern`: `^(#[0-9a-fA-F]{3,8}|rgb\(|rgba\(|hsl\(|hsla\(|[a-zA-Z]+)`,
anchored only at the start. -/
def colorPatternMatch (cs : List Char) : Bool :=
  match cs with
  | '#' :: r => 3 ≤ (r.takeWhile isHexDig).length
  | _ =>
    listStarts ("rgb(".toList) cs || listStarts ("rgba(".toList) cs
    || listStarts ("hsl(".toList) cs || listStarts ("hsla(".toList) cs
    || (match cs with | c :: _ => c.isAlpha | [] => false)

/-! Model of the external Go `net/url.Parse` collaborator used by the
link and virtual-location validators. The validators only test whether
`Parse` returns an error, so the model follows every error path of
`url.Parse(raw)` (which calls `parse(u, viaRequest=false)` on the part
before the first `#` and `setFragment` on the rest). Go works on bytes;
the model works on characters, which agrees on error behaviour: all
splitting separators and hex digits are ASCII (never bytes of a longer
UTF-8 sequence), the control-byte test only fires on bytes < 0x20 or
0x7f (exactly the characters with those code points), and bytes ≥ 0x80
are never rejected by `shouldEscape`, matching characters ≥ U+0080
whose bytes are all ≥ 0x80. -/

/-- `stringContainsCTLByte`: any byte below 0x20 or equal to 0x7f. -/
def stringContainsCTL (cs : List Char) : Bool :=
  cs.any (fun c => c.toNat < 0x20 || c.toNat = 0x7f)

/-- `unhex` on a hex digit character. -/
def unhexGo (c : Char) : Nat :=
  if isDig c then c.toNat - 48
  else if 'a' ≤ c && c ≤ 'f' then c.toNat - 97 + 10
  else if 'A' ≤ c && c ≤ 'F' then c.toNat - 65 + 10
  else 0

/-- `shouldEscape(c, encodeHost)` for an ASCII byte (identical for
`encodeZone`): letters, digits, the host sub-delims
`! $ & \x27 ( ) * + , ; = : [ ] < > "` and the marks `- _ . ~` pass. -/
def shouldEscapeHost (c : Char) : Bool :=
  !(c.isAlpha || isDig c
    || c = '!' || c = '$' || c = '&' || c = '\x27' || c = '(' || c = ')'
    || c = '*' || c = '+' || c = ',' || c = ';' || c = '=' || c = ':'
    || c = '[' || c = ']' || c = '<' || c = '>' || c = '"'
    || c = '-' || c = '_' || c = '.' || c = '~')

/-- `shouldEscape(rune(v), encodeHost)` for a byte value `v` (used by the
zone check); values ≥ 0x80 match no allowed case and escape. -/
def hostEscapeByte (v : Nat) : Bool :=
  if v < 0x80 then shouldEscapeHost (Char.ofNat v) else true

/-- `unescape` in the modes `encodePath`, `encodeFragment` and
`encodeUserPassword` errors exactly on a `%` not followed by two hex
digits. -/
def badEscapes : List Char → Bool
  | '%' :: a :: b :: r2 => !(isHexDig a && isHexDig b) || badEscapes r2
  | '%' :: _ => true
  | _ :: rest => badEscapes rest
  | [] => false

/-- `unescape(s, encodeHost)` errors: a malformed `%`-escape, a
`%`-escape of an ASCII byte other than `%25`, or an unescaped ASCII
character that `shouldEscape` rejects for hosts. -/
def unescapeHostErr : List Char → Bool
  | '%' :: a :: b :: r2 =>
    !(isHexDig a && isHexDig b) || (unhexGo a < 8 && !(a = '2' && b = '5'))
      || unescapeHostErr r2
  | '%' :: _ => true
  | c :: rest => (c.toNat < 0x80 && shouldEscapeHost c) || unescapeHostErr rest
  | [] => false

/-- `unescape(s, encodeZone)` errors: a malformed `%`-escape, a
`%`-escape other than `%25` or `%20` whose byte value `shouldEscape`
rejects for hosts, or an unescaped ASCII character rejected for
hosts. -/
def unescapeZoneErr : List Char → Bool
  | '%' :: a :: b :: r2 =>
    !(isHexDig a && isHexDig b)
      || (!(a = '2' && b = '5') && unhexGo a * 16 + unhexGo b ≠ 32
          && hostEscapeByte (unhexGo a * 16 + unhexGo b))
      || unescapeZoneErr r2
  | '%' :: _ => true
  | c :: rest => (c.toNat < 0x80 && shouldEscapeHost c) || unescapeZoneErr rest
  | [] => false

/-- `validOptionalPort`: empty, or a `:` followed by digits only. -/
def validOptionalPort : List Char → Bool
  | [] => true
  | ':' :: ds => ds.all isDig
  | _ => false

/-- `validUserinfo`: ASCII letters, digits and
`- . _ : ~ ! $ & \x27 ( ) * + , ; = % @` only. -/
def validUserinfo (cs : List Char) : Bool :=
  cs.all (fun c => c.isAlpha || isDig c
    || c = '-' || c = '.' || c = '_' || c = ':' || c = '~' || c = '!'
    || c = '$' || c = '&' || c = '\x27' || c = '(' || c = ')' || c = '*'
    || c = '+' || c = ',' || c = ';' || c = '=' || c = '%' || c = '@')

/-- `strings.Index(s, "%25")`: index of the first `%25` substring. -/
def idxOfPct25 : List Char → Option Nat
  | '%' :: '2' :: '5' :: _ => some 0
  | _ :: rest => (idxOfPct25 rest).map (· + 1)
  | [] => none

/-- `parseHost` succeeds: a bracketed host needs a closing `]`, a valid
optional port after it and, when a `%25` zone marker occurs before the
`]`, host/zone/host unescaping of the three segments; otherwise the part
from the last `:` must be a valid optional port and the whole host must
unescape in host mode. -/
def parseHostOk (host : List Char) : Bool :=
  match host with
  | '[' :: _ =>
    match lastIdxOf? ']' host with
    | none => false
    | some i =>
      validOptionalPort (host.drop (i + 1)) &&
      (match idxOfPct25 (host.take i) with
       | some z =>
         !unescapeHostErr (host.take z) && !unescapeZoneErr ((host.take i).drop z)
           && !unescapeHostErr (host.drop i)
       | none => !unescapeHostErr host)
  | _ =>
    (match lastIdxOf? ':' host with
     | some i => validOptionalPort (host.drop i)
     | none => true) &&
    !unescapeHostErr host

/-- `parseAuthority` succeeds: the part after the last `@` parses as a
host; any userinfo before it passes `validUserinfo` and its username
(and password, when a `:` is present) unescape in user-password mode. -/
def parseAuthorityOk (authority : List Char) : Bool :=
  match lastIdxOf? '@' authority with
  | none => parseHostOk authority
  | some i =>
    parseHostOk (authority.drop (i + 1)) &&
    (let userinfo := authority.take i
     validUserinfo userinfo &&
     (if userinfo.contains ':' then
        match idxOf? ':' userinfo with
        | some j => !badEscapes (userinfo.take j) && !badEscapes (userinfo.drop (j + 1))
        | none => true
      else !badEscapes userinfo))

/-- `getScheme`: scan ASCII letters (and after the first character also
digits, `+`, `-`, `.`); a `:` there splits off the scheme unless it is
the first character (`missing protocol scheme`, the only error, `none`
here); any other character means no scheme and the whole input is the
remainder. -/
def getSchemeAux (orig : List Char) (acc : List Char) : List Char → Option (List Char × List Char)
  | [] => some ([], orig)
  | c :: rest =>
    if ('a' ≤ c && c ≤ 'z') || ('A' ≤ c && c ≤ 'Z') then
      getSchemeAux orig (acc ++ [c]) rest
    else if isDig c || c = '+' || c = '-' || c = '.' then
      if acc.isEmpty then some ([], orig)
      else getSchemeAux orig (acc ++ [c]) rest
    else if c = ':' then
      if acc.isEmpty then none else some (acc, rest)
    else some ([], orig)

def getScheme (cs : List Char) : Option (List Char × List Char) :=
  getSchemeAux cs [] cs

/-- `parse(u, viaRequest=false)` succeeds: no control bytes; `*` is the
special star path; the scheme splits off; a sole trailing `?` forces a
query, otherwise the query after the first `?` is split off unvalidated;
a rootless remainder is opaque (accepted as-is) under a scheme, and
otherwise its first segment must not contain `:` and it must unescape as
a path; a rooted remainder starting `//` (except a scheme-less `///`)
splits authority from path at the next `/`. -/
def parseUrlOk (u : List Char) : Bool :=
  if stringContainsCTL u then false
  else if u = ['*'] then true
  else
    match getScheme u with
    | none => false
    | some (scheme, rest0) =>
      let rest :=
        if rest0.getLast? = some '?' && !(rest0.dropLast.contains '?') then
          rest0.dropLast
        else
          match idxOf? '?' rest0 with
          | some i => rest0.take i
          | none => rest0
      if !listStarts ['/'] rest then
        if !scheme.isEmpty then true
        else
          let segment :=
            match idxOf? '/' rest with
            | some i => rest.take i
            | none => rest
          if segment.contains ':' then false
          else !badEscapes rest
      else
        if listStarts ['/', '/'] rest
            && (!scheme.isEmpty || !listStarts ['/', '/', '/'] rest) then
          let afterSlashes := rest.drop 2
          let (authority, rest2) :=
            match idxOf? '/' afterSlashes with
            | some i => (afterSlashes.take i, afterSlashes.drop i)
            | none => (afterSlashes, ([] : List Char))
          parseAuthorityOk authority && !badEscapes rest2
        else
          !badEscapes rest

/-- `url.Parse(raw)` succeeds: the part before the first `#` parses, and
a nonempty fragment after it unescapes in fragment mode. -/
def urlParseOk (s : String) : Bool :=
  let cs := s.toList
  let pair :=
    match idxOf? '#' cs with
    | some i => (cs.take i, cs.drop (i + 1))
    | none => (cs, ([] : List Char))
  parseUrlOk pair.1 && (pair.2.isEmpty || !badEscapes pair.2)

/-! ## NDay and ParseNDay (types.go) -/

structure NDay where
  day : String
  nthOfPeriod : Option Int
deriving DecidableEq

/-- `FormatDayOfWeek` (types.go). -/
def FormatDayOfWeek (day : String) : String :=
  let u := goUpper day
  if u = "MONDAY" ∨ u = "MO" then "mo"
  else if u = "TUESDAY" ∨ u = "TU" then "tu"
  else if u = "WEDNESDAY" ∨ u = "WE" then "we"
  else if u = "THURSDAY" ∨ u = "TH" then "th"
  else if u = "FRIDAY" ∨ u = "FR" then "fr"
  else if u = "SATURDAY" ∨ u = "SA" then "sa"
  else if u = "SUNDAY" ∨ u = "SU" then "su"
  else goLower day

/-- Model of Go `fmt.Sscanf` with verb percent-d: optional sign then a
nonempty digit prefix. -/
def scanIntChars (cs : List Char) : Option Int :=
  let sign : Int := match cs with | '-' :: _ => -1 | _ => 1
  let cs1 := match cs with | '-' :: r => r | '+' :: r => r | _ => cs
  let ds := cs1.takeWhile isDig
  if ds.isEmpty then none else some (sign * (digitsVal ds : Int))

/-- The character loop of `ParseNDay`: a minus sign is allowed only at
index 0, every other character must be a decimal digit. -/
def validOccChars : List Char → Bool
  | '-' :: r => r.all isDig
  | cs => cs.all isDig

def validDayCode (d : String) : Bool :=
  d = "mo" || d = "tu" || d = "we" || d = "th" || d = "fr" || d = "sa" || d = "su"

/-- Final day-code validation shared by both branches of `ParseNDay`. -/
def finishNDay (dayPart : List Char) (nth : Option Int) : Except String NDay :=
  if dayPart.length ≠ 2 then
    Except.error ("invalid day format: must be 2-character day code, got " ++ String.mk dayPart)
  else
    let formatted := FormatDayOfWeek (String.mk dayPart)
    if validDayCode formatted then Except.ok ⟨formatted, nth⟩
    else Except.error ("invalid day: " ++ String.mk dayPart)

/-- Translation of `ParseNDay` (types.go). -/
def ParseNDay (value : String) : Except String NDay :=
  let cs := value.toList
  if cs.length < 2 then Except.error ("invalid day value: " ++ value)
  else if 2 < cs.length then
    let numPart := cs.take (cs.length - 2)
    let dayPart := cs.drop (cs.length - 2)
    if !validOccChars numPart then
      Except.error ("invalid occurrence format: numeric prefix must be integer, got "
        ++ String.mk numPart)
    else
      match scanIntChars numPart with
      | some n => finishNDay dayPart (some n)
      | none =>
        Except.error ("invalid occurrence format: failed to parse "
          ++ String.mk numPart ++ " as integer")
  else finishNDay cs none

example : ParseNDay "-1FR" = Except.ok ⟨"fr", some (-1)⟩ := by decide
example : ParseNDay "xx" = Except.error ("invalid day: xx") := by decide
example : ParseNDay "2MO" = Except.ok ⟨"mo", some 2⟩ := by decide
example : ParseNDay "F" = Except.error ("invalid day value: F") := by decide

/-! ## Nested entities and their validators (types.go, validate.go)

Each structure keeps exactly the fields its validator or the iCal
bridge reads; the remaining Go struct fields are never read by any
embedded operation. -/

structure Link where
  href : String
deriving DecidableEq

structure OffsetTrigger where
  type_ : String
  offset : String
  relativeTo : Option String
deriving DecidableEq

structure Alert where
  type_ : String
  trigger : Option OffsetTrigger
  action : Option String
deriving DecidableEq

structure Participant where
  name : Option String
  email : Option String
  kind : Option String
  roles : Option (List (String × Bool))
  participationStatus : Option String
  scheduleAgent : Option String
deriving DecidableEq

structure Location where
  name : Option String
  coordinates : Option String
  relativeTo : Option String
  timeZone : Option String
  links : Option (List (String × Option Link))
deriving DecidableEq

structure VirtualLocation where
  type_ : String
  name : Option String
  uri : String
  features : List (String × Bool)
deriving DecidableEq

structure RecurrenceRule where
  type_ : String
  frequency : String
  interval : Option Int
  rscale : Option String
  skip : Option String
  firstDayOfWeek : Option Int
  byDay : List NDay
  count : Option Int
  until_ : Option LocalDateTime
deriving DecidableEq

/-- Apply a per-entity sub-validator to every entry of a Go map field. -/
def validateMapEntries (f : String → Option α → List ValidationError)
    (m : List (String × Option α)) : List ValidationError :=
  (m.map (fun kv => f kv.1 kv.2)).flatten

/-- Translation of `validateLink` (validate.go). -/
def validateLink (id : String) (l : Option Link) : List ValidationError :=
  match l with
  | none => []
  | some l =>
    if l.href = "" then [⟨s!"links[{id}].href", "is required"⟩]
    else if !urlParseOk l.href then [⟨s!"links[{id}].href", "invalid URL format"⟩]
    else []

def participationStatusAllow (s : String) : Bool :=
  s = "needs-action" || s = "accepted" || s = "declined" || s = "tentative" || s = "delegated"

def scheduleAgentAllow (s : String) : Bool := s = "server" || s = "client" || s = "none"

def kindAllow (s : String) : Bool :=
  s = "individual" || s = "group" || s = "resource" || s = "location" || s = "unknown"

def roleAllow (s : String) : Bool :=
  s = "owner" || s = "attendee" || s = "optional" || s = "informational"
  || s = "chair" || s = "contact"

/-- Translation of `validateParticipant` (validate.go). -/
def validateParticipant (id : String) (p : Option Participant) : List ValidationError :=
  match p with
  | none => []
  | some p =>
    (match p.email with
     | some e =>
       if e ≠ "" ∧ ¬(e.toList.contains '@') then
         [⟨s!"participants[{id}].email", "invalid email format"⟩]
       else []
     | none => [])
    ++ (match p.participationStatus with
        | some s =>
          if !participationStatusAllow s then
            [⟨s!"participants[{id}].participationStatus", "invalid participationStatus"⟩]
          else []
        | none => [])
    ++ (match p.scheduleAgent with
        | some s =>
          if !scheduleAgentAllow s then
            [⟨s!"participants[{id}].scheduleAgent", "invalid scheduleAgent"⟩]
          else []
        | none => [])
    ++ (match p.kind with
        | some s =>
          if !kindAllow s then [⟨s!"participants[{id}].kind", "invalid kind"⟩] else []
        | none => [])
    ++ (match p.roles with
        | some roles =>
          (roles.map (fun kv =>
            if !roleAllow kv.1 then [⟨s!"participants[{id}].roles[{kv.1}]", "invalid role"⟩]
            else [])).flatten
        | none => [])

def relativeToAllow (s : String) : Bool := s = "start" || s = "end"

/-- Translation of `validateLocation` (validate.go). -/
def validateLocation (id : String) (l : Option Location) : List ValidationError :=
  match l with
  | none => []
  | some l =>
    (match l.coordinates with
     | some c =>
       if !listStarts ("geo:".toList) c.toList then
         [⟨s!"locations[{id}].coordinates", "must be a geo: URI"⟩]
       else []
     | none => [])
    ++ (match l.relativeTo with
        | some s =>
          if !relativeToAllow s then [⟨s!"locations[{id}].relativeTo", "invalid relativeTo"⟩]
          else []
        | none => [])
    ++ (match l.timeZone with
        | some tz =>
          if tz ≠ "" ∧ ¬(timezonePatternMatch tz.toList) then
            [⟨s!"locations[{id}].timeZone", "invalid IANA timezone identifier"⟩]
          else []
        | none => [])
    ++ (match l.links with
        | some lm =>
          (lm.map (fun kv => validateLink s!"locations[{id}].links[{kv.1}]" kv.2)).flatten
        | none => [])

/-- Translation of `validateVirtualLocation` (validate.go). -/
def validateVirtualLocation (id : String) (vl : Option VirtualLocation) : List ValidationError :=
  match vl with
  | none => []
  | some vl =>
    (if vl.type_ ≠ "VirtualLocation" then
      [⟨s!"virtualLocations[{id}].@type", "must be \x27VirtualLocation\x27"⟩]
     else [])
    ++ (if vl.uri = "" then [⟨s!"virtualLocations[{id}].uri", "is required"⟩]
        else if !urlParseOk vl.uri then
          [⟨s!"virtualLocations[{id}].uri", "invalid URI format"⟩]
        else [])
    ++ (vl.features.map (fun kv =>
        if kv.2 = false then
          [⟨s!"virtualLocations[{id}].features[{kv.1}]",
            "feature value must be true (RFC 8984: features are a String[Boolean] set)"⟩]
        else [])).flatten

/-- Translation of `validateAlert` (validate.go). -/
def validateAlert (id : String) (a : Option Alert) : List ValidationError :=
  match a with
  | none => []
  | some a =>
    (if a.type_ ≠ "Alert" then [⟨s!"alerts[{id}].@type", "must be \x27Alert\x27"⟩] else [])
    ++ (match a.trigger with
        | none => [⟨s!"alerts[{id}].trigger", "is required"⟩]
        | some tr =>
          (if tr.type_ ≠ "OffsetTrigger" then
            [⟨s!"alerts[{id}].trigger.@type", "must be \x27OffsetTrigger\x27"⟩]
           else [])
          ++ (if tr.offset = "" then
                [⟨s!"alerts[{id}].trigger", "must have either offset or when"⟩]
              else [])
          ++ (if tr.offset ≠ "" ∧ ¬(durationPatternMatch tr.offset.toList) then
                [⟨s!"alerts[{id}].trigger.offset", "invalid ISO 8601 duration format"⟩]
              else [])
          ++ (match tr.relativeTo with
              | some s =>
                if !relativeToAllow s then
                  [⟨s!"alerts[{id}].trigger.relativeTo", "invalid relativeTo"⟩]
                else []
              | none => []))
    ++ (match a.action with
        | some s =>
          if !(s = "display" || s = "email") then [⟨s!"alerts[{id}].action", "invalid action"⟩]
          else []
        | none => [])

def freqAllow (f : String) : Bool :=
  f = "yearly" || f = "monthly" || f = "weekly" || f = "daily"
  || f = "hourly" || f = "minutely" || f = "secondly"

def rscaleAllow (s : String) : Bool :=
  s = "gregorian" || s = "chinese" || s = "hebrew" || s = "islamic" || s = "islamic-civil"
  || s = "islamic-tbla" || s = "persian" || s = "ethiopic" || s = "coptic" || s = "japanese"
  || s = "buddhist" || s = "indian"

def skipAllow (s : String) : Bool := s = "forward" || s = "backward" || s = "omit"

/-- The checks of `validateRecurrenceRule` preceding the count/until
mutual-exclusion check: type tag, frequency, interval, count. -/
def vrrBasicErrors (fieldPath : String) (r : RecurrenceRule) : List ValidationError :=
  (if r.type_ ≠ "RecurrenceRule" then
    [⟨s!"{fieldPath}.@type", "must be \x27RecurrenceRule\x27"⟩]
   else [])
  ++ (if r.frequency = "" then [⟨s!"{fieldPath}.frequency", "is required"⟩]
      else if !freqAllow r.frequency then
        [⟨s!"{fieldPath}.frequency", "invalid frequency"⟩]
      else [])
  ++ (match r.interval with
      | some i => if i < 1 then [⟨s!"{fieldPath}.interval", "must be positive"⟩] else []
      | none => [])
  ++ (match r.count with
      | some c => if c < 1 then [⟨s!"{fieldPath}.count", "must be positive"⟩] else []
      | none => [])

/-- The checks of `validateRecurrenceRule` following the count/until
mutual-exclusion check: rscale, skip, first day of week, by-day codes. -/
def vrrTailErrors (fieldPath : String) (r : RecurrenceRule) : List ValidationError :=
  (match r.rscale with
   | some s =>
     if s ≠ "" ∧ ¬(rscaleAllow s) then [⟨s!"{fieldPath}.rscale", "invalid rscale"⟩]
     else []
   | none => [])
  ++ (match r.skip with
      | some s =>
        if s ≠ "" ∧ ¬(skipAllow s) then [⟨s!"{fieldPath}.skip", "invalid skip"⟩] else []
      | none => [])
  ++ (match r.firstDayOfWeek with
      | some f =>
        if f < 0 ∨ 6 < f then [⟨s!"{fieldPath}.firstDayOfWeek", "invalid firstDayOfWeek"⟩]
        else []
      | none => [])
  ++ (r.byDay.enum.map (fun iv =>
      if !validDayCode iv.2.day then
        [⟨s!"{fieldPath}.byDay[{iv.1}].day", "invalid day"⟩]
      else [])).flatten

/-- Translation of `validateRecurrenceRule` (validate.go, the copy called
by the Event and Task validators), with its checks in source order. -/
def validateRecurrenceRule (fieldPath : String) (rr : Option RecurrenceRule) :
    List ValidationError :=
  match rr with
  | none => []
  | some r =>
    vrrBasicErrors fieldPath r
    ++ (if r.count.isSome ∧ r.until_.isSome then
          [⟨fieldPath, "cannot have both count and until"⟩]
        else [])
    ++ vrrTailErrors fieldPath r

/-! ## Event, Task, Group and their validators (event.go, task.go,
group.go, validate.go) -/

structure Event where
  type_ : String
  uid : String
  title : Option String
  description : Option String
  descriptionContentType : Option String
  start : Option LocalDateTime
  duration : Option String
  timeZone : Option String
  color : Option String
  status : Option String
  freeBusyStatus : Option String
  privacy : Option String
  priority : Option Int
  method : Option String
  sequence : Option Int
  categories : List (String × Bool)
  participants : List (String × Option Participant)
  locations : List (String × Option Location)
  virtualLocations : List (String × Option VirtualLocation)
  alerts : List (String × Option Alert)
  links : List (String × Option Link)
  recurrenceRules : List RecurrenceRule
deriving DecidableEq

def statusAllow (s : String) : Bool := s = "confirmed" || s = "tentative" || s = "cancelled"

def freeBusyAllow (s : String) : Bool :=
  s = "free" || s = "busy" || s = "tentative" || s = "unavailable"

def privacyAllow (s : String) : Bool := s = "public" || s = "private" || s = "secret"

def methodAllow (s : String) : Bool :=
  s = "publish" || s = "request" || s = "reply" || s = "add" || s = "cancel"
  || s = "refresh" || s = "counter" || s = "declineCounter"

/-- The scalar/range/required-field phase of `Event.Validate`
(validate.go), every check in source order. -/
def eventScalarErrors (e : Event) : List ValidationError :=
  (if e.type_ ≠ "Event" then [⟨"@type", "must be \x27Event\x27"⟩] else [])
  ++ (if e.uid = "" then [⟨"uid", "is required"⟩]
      else if MaxUIDLength < e.uid.length then
        [⟨"uid", s!"exceeds maximum length of {MaxUIDLength} characters"⟩]
      else [])
  ++ (if e.start.isNone then [⟨"start", "is required"⟩] else [])
  ++ (match e.title with
      | some t =>
        if MaxTitleLength < t.length then
          [⟨"title", s!"exceeds maximum length of {MaxTitleLength} characters"⟩]
        else []
      | none => [])
  ++ (match e.description with
      | some t =>
        if MaxDescriptionLength < t.length then
          [⟨"description", s!"exceeds maximum length of {MaxDescriptionLength} characters"⟩]
        else []
      | none => [])
  ++ (match e.duration with
      | some d =>
        if !durationPatternMatch d.toList then
          [⟨"duration", "invalid ISO 8601 duration format"⟩]
        else []
      | none => [])
  ++ (match e.timeZone with
      | some tz =>
        if !timezonePatternMatch tz.toList then
          [⟨"timeZone", "invalid IANA timezone identifier"⟩]
        else []
      | none => [])
  ++ (match e.color with
      | some c =>
        if !colorPatternMatch c.toList then [⟨"color", "invalid CSS color value"⟩] else []
      | none => [])
  ++ (match e.status with
      | some s => if !statusAllow s then [⟨"status", "invalid status"⟩] else []
      | none => [])
  ++ (match e.freeBusyStatus with
      | some s => if !freeBusyAllow s then [⟨"freeBusyStatus", "invalid freeBusyStatus"⟩] else []
      | none => [])
  ++ (match e.privacy with
      | some s => if !privacyAllow s then [⟨"privacy", "invalid privacy"⟩] else []
      | none => [])
  ++ (match e.priority with
      | some p => if p < 0 ∨ 9 < p then [⟨"priority", "must be between 0 and 9"⟩] else []
      | none => [])
  ++ (match e.method with
      | some s => if !methodAllow s then [⟨"method", "invalid method value"⟩] else []
      | none => [])
  ++ (match e.descriptionContentType with
      | some s =>
        if !(s = "text/plain" || s = "text/html") then
          [⟨"descriptionContentType", "must be text/plain or text/html"⟩]
        else []
      | none => [])
  ++ (match e.sequence with
      | some s => if s < 0 then [⟨"sequence", "cannot be negative"⟩] else []
      | none => [])

/-- The recurrence-rule phase of `Event.Validate`. -/
def eventRuleErrors (e : Event) : List ValidationError :=
  (e.recurrenceRules.enum.map (fun iv =>
    validateRecurrenceRule s!"recurrenceRules[{iv.1}]" (some iv.2))).flatten

/-- Translation of `Event.Validate` (validate.go): the aggregated
violation list; Go returns a nil error exactly when this list is empty. -/
def eventValidate (e : Event) : List ValidationError :=
  eventScalarErrors e
  ++ validateMapEntries validateParticipant e.participants
  ++ validateMapEntries validateLocation e.locations
  ++ validateMapEntries validateVirtualLocation e.virtualLocations
  ++ validateMapEntries validateAlert e.alerts
  ++ validateMapEntries validateLink e.links
  ++ eventRuleErrors e

structure Task where
  type_ : String
  uid : String
  title : Option String
  description : Option String
  progress : Option String
  percentComplete : Option Int
  estimatedDuration : Option String
  start : Option LocalDateTime
  due : Option LocalDateTime
  status : Option String
  priority : Option Int
  freeBusyStatus : Option String
  privacy : Option String
  sequence : Option Int
  participants : List (String × Option Participant)
  locations : List (String × Option Location)
  virtualLocations : List (String × Option VirtualLocation)
  alerts : List (String × Option Alert)
  links : List (String × Option Link)
  recurrenceRules : List RecurrenceRule
deriving DecidableEq

def progressAllow (s : String) : Bool :=
  s = "needs-action" || s = "in-process" || s = "completed" || s = "failed" || s = "cancelled"

def taskStatusAllow (s : String) : Bool :=
  s = "needs-action" || s = "in-process" || s = "completed" || s = "cancelled"

/-- Translation of `Task.Validate` (task.go). -/
def taskValidate (t : Task) : List ValidationError :=
  (if t.type_ ≠ "Task" then [⟨"@type", "must be \x27Task\x27"⟩] else [])
  ++ (if t.uid = "" then [⟨"uid", "is required"⟩] else [])
  ++ (if MaxUIDLength < t.uid.length then
        [⟨"uid", s!"exceeds maximum length of {MaxUIDLength} characters"⟩]
      else [])
  ++ (match t.title with
      | some s =>
        if MaxTitleLength < s.length then
          [⟨"title", s!"exceeds maximum length of {MaxTitleLength} characters"⟩]
        else []
      | none => [])
  ++ (match t.description with
      | some s =>
        if MaxDescriptionLength < s.length then
          [⟨"description", s!"exceeds maximum length of {MaxDescriptionLength} characters"⟩]
        else []
      | none => [])
  ++ (match t.progress with
      | some s => if !progressAllow s then [⟨"progress", "invalid progress value"⟩] else []
      | none => [])
  ++ (match t.percentComplete with
      | some p =>
        if p < 0 ∨ 100 < p then [⟨"percentComplete", "must be between 0 and 100"⟩] else []
      | none => [])
  ++ (match t.estimatedDuration with
      | some d =>
        if !durationPatternMatch d.toList then
          [⟨"estimatedDuration", "invalid ISO 8601 duration format"⟩]
        else []
      | none => [])
  ++ (match t.start, t.due with
      | some st, some du =>
        if du.toAbs < st.toAbs then [⟨"due", "due date cannot be before start date"⟩] else []
      | _, _ => [])
  ++ (match t.status with
      | some s => if !taskStatusAllow s then [⟨"status", "invalid status"⟩] else []
      | none => [])
  ++ (match t.priority with
      | some p => if p < 0 ∨ 9 < p then [⟨"priority", "must be between 0 and 9"⟩] else []
      | none => [])
  ++ (match t.freeBusyStatus with
      | some s => if !freeBusyAllow s then [⟨"freeBusyStatus", "invalid freeBusyStatus"⟩] else []
      | none => [])
  ++ (match t.privacy with
      | some s => if !privacyAllow s then [⟨"privacy", "invalid privacy"⟩] else []
      | none => [])
  ++ (match t.sequence with
      | some s => if s < 0 then [⟨"sequence", "cannot be negative"⟩] else []
      | none => [])
  ++ validateMapEntries validateParticipant t.participants
  ++ validateMapEntries validateLocation t.locations
  ++ validateMapEntries validateVirtualLocation t.virtualLocations
  ++ validateMapEntries validateAlert t.alerts
  ++ validateMapEntries validateLink t.links
  ++ (t.recurrenceRules.enum.map (fun iv =>
      validateRecurrenceRule s!"recurrenceRules[{iv.1}]" (some iv.2))).flatten

/-- The `CalendarObject` interface values a Group entry list can hold. -/
inductive CalObj where
  | event : Event → CalObj
  | task : Task → CalObj
deriving DecidableEq

def CalObj.getUID : CalObj → String
  | .event e => e.uid
  | .task t => t.uid

def CalObj.getType : CalObj → String
  | .event e => e.type_
  | .task t => t.type_

def CalObj.validate : CalObj → List ValidationError
  | .event e => eventValidate e
  | .task t => taskValidate t

structure Group where
  type_ : String
  uid : String
  title : Option String
  description : Option String
  sequence : Option Int
  color : Option String
  links : List (String × Option Link)
  entries : List (Option CalObj)
deriving DecidableEq

/-- The first entry loop of `Group.Validate`: duplicate-UID detection
(`seen` carries the UIDs recorded so far), nil-entry violations, entry
type check, and the spliced per-entry validation with rewritten field
paths. -/
def groupEntriesLoop : Nat → List String → List (Option CalObj) → List ValidationError
  | _, _, [] => []
  | i, seen, none :: rest =>
    ⟨s!"entries[{i}]", "entry cannot be nil"⟩ :: groupEntriesLoop (i + 1) seen rest
  | i, seen, some entry :: rest =>
    let uid := entry.getUID
    (if seen.contains uid then
      [⟨s!"entries[{i}]", s!"duplicate UID \x27{uid}\x27 in group entries"⟩]
     else [])
    ++ (if entry.getType ≠ "Event" ∧ entry.getType ≠ "Task" then
          [⟨s!"entries[{i}].@type", "must be \x27Event\x27 or \x27Task\x27"⟩]
        else [])
    ++ (entry.validate.map (fun er => ⟨s!"entries[{i}].{er.field}", er.message⟩))
    ++ groupEntriesLoop (i + 1) (uid :: seen) rest

/-- The self-containment loop of `Group.Validate`.  (A nil entry would
make Go dereference a nil interface here; the `none` case is unreachable
under `groupValidate`'s guard below.) -/
def groupSelfRefLoop (guid : String) : Nat → List (Option CalObj) → List ValidationError
  | _, [] => []
  | i, some entry :: rest =>
    (if entry.getUID = guid then [⟨s!"entries[{i}]", "group cannot contain itself"⟩] else [])
    ++ groupSelfRefLoop guid (i + 1) rest
  | i, none :: rest => groupSelfRefLoop guid (i + 1) rest

/-- The violation list built by `Group.Validate` (group.go). -/
def groupValidateBody (g : Group) : List ValidationError :=
  (if g.type_ ≠ "Group" then [⟨"@type", "must be \x27Group\x27"⟩] else [])
      ++ (if g.uid = "" then [⟨"uid", "is required"⟩] else [])
      ++ (if MaxUIDLength < g.uid.length then
            [⟨"uid", s!"exceeds maximum length of {MaxUIDLength} characters"⟩]
          else [])
      ++ (match g.title with
          | some s =>
            if MaxTitleLength < s.length then
              [⟨"title", s!"exceeds maximum length of {MaxTitleLength} characters"⟩]
            else []
          | none => [])
      ++ (match g.description with
          | some s =>
            if MaxDescriptionLength < s.length then
              [⟨"description", s!"exceeds maximum length of {MaxDescriptionLength} characters"⟩]
            else []
          | none => [])
      ++ (match g.sequence with
          | some s => if s < 0 then [⟨"sequence", "cannot be negative"⟩] else []
          | none => [])
      ++ (match g.color with
          | some c =>
            if !colorPatternMatch c.toList then [⟨"color", "invalid color format"⟩] else []
          | none => [])
      ++ validateMapEntries validateLink g.links
      ++ groupEntriesLoop 0 [] g.entries
      ++ groupSelfRefLoop g.uid 0 g.entries

/-- Translation of `Group.Validate` (group.go).  `none` models the Go
panic raised by the self-containment loop when an entry is a nil
interface value; Go returns a nil error exactly when the returned list
is empty. -/
def groupValidate (g : Group) : Option (List ValidationError) :=
  if g.entries.contains none then none
  else some (groupValidateBody g)

/-! ## iCal bridge pieces (convert/ical/converter.go) -/

/-- The CLASS-to-privacy import branch of `convertICalEventToJSCal`. -/
def importClassToPrivacy (classVal : String) : String :=
  let privacy := goLower classVal
  if privacy = "confidential" then "private" else privacy

/-- The privacy-to-CLASS export branch of `convertJSCalEventToICal`. -/
def exportPrivacyToClass (privacy : String) : String :=
  let c := goUpper privacy
  if c = "PRIVATE" then "CONFIDENTIAL" else c

/-- Go map lookup `roles[k]` with the zero value `false` for absent keys. -/
def rolesLookup (m : List (String × Bool)) (k : String) : Bool :=
  match m.find? (fun kv => kv.1 = k) with
  | some kv => kv.2
  | none => false

/-- The ROLE parameter selection of `convertParticipants` (export). -/
def exportAttendeeRole (roles : List (String × Bool)) : String :=
  if rolesLookup roles "chair" then "CHAIR"
  else if rolesLookup roles "optional" then "OPT-PARTICIPANT"
  else if rolesLookup roles "informational" then "NON-PARTICIPANT"
  else "REQ-PARTICIPANT"

/-- The ROLE parameter actually attached to an exported ATTENDEE property:
emitted only when the participant's role map is non-nil. -/
def attendeeRoleParam : Option (List (String × Bool)) → Option String
  | none => none
  | some roles => some (exportAttendeeRole roles)

/-- A parsed iCalendar VEVENT component as handed to
`convertICalEventToJSCal`, reduced to the identifier and summary; the
other properties influence neither the control flow of `ParseAll` nor
any theorem below. -/
structure VEvent where
  uid : String
  summary : Option String
deriving DecidableEq

/-- An `Event` value with only the type tag set, the base for conversion. -/
def blankEvent : Event :=
  { type_ := "Event", uid := "", title := none, description := none,
    descriptionContentType := none, start := none, duration := none, timeZone := none,
    color := none, status := none, freeBusyStatus := none, privacy := none,
    priority := none, method := none, sequence := none, categories := [],
    participants := [], locations := [], virtualLocations := [], alerts := [],
    links := [], recurrenceRules := [] }

/-- `convertICalEventToJSCal`, faithful to its failure behaviour: a
component whose identifier is empty fails with `event missing UID` and
produces no partial object; otherwise an event is returned. -/
def convertICalEventToJSCal (v : VEvent) : Except String Event :=
  if v.uid = "" then Except.error ("event missing UID")
  else Except.ok { blankEvent with uid := v.uid, title := v.summary }

/-- The conversion loop of `Converter.ParseAll`: each component is
converted in order and the first failure is returned immediately,
wrapped in `failed to convert event: `. -/
def parseAllVEvents : List VEvent → Except String (List Event)
  | [] => Except.ok []
  | v :: rest =>
    match convertICalEventToJSCal v with
    | Except.error e => Except.error ("failed to convert event: " ++ e)
    | Except.ok ev =>
      match parseAllVEvents rest with
      | Except.error e => Except.error e
      | Except.ok evs => Except.ok (ev :: evs)

/-! ## Statement helpers -/

/-- `sub` occurs contiguously inside the second list (substring test for
the "message contains" clauses of the specification). -/
def hasSubstr (sub : List Char) : List Char → Bool
  | [] => sub.isEmpty
  | c :: rest => listStarts sub (c :: rest) || hasSubstr sub rest

/-! ## Digit and scanning lemmas -/

theorem isDig_digCh {n : Nat} (h : n < 10) : isDig (digCh n) = true := by
  interval_cases n <;> decide

theorem digVal_digCh {n : Nat} (h : n < 10) : digVal (digCh n) = n := by
  interval_cases n <;> decide

theorem digitsVal_append (l : List Char) (c : Char) :
    digitsVal (l ++ [c]) = 10 * digitsVal l + digVal c := by
  unfold digitsVal
  rw [List.foldl_append]
  rfl

theorem natDigitsGo_spec : ∀ (fuel n : Nat), n < fuel →
    (∀ c ∈ natDigitsGo fuel n, isDig c = true)
    ∧ digitsVal (natDigitsGo fuel n) = n
    ∧ natDigitsGo fuel n ≠ [] := by
  intro fuel
  induction fuel with
  | zero => intro n h; exact absurd h (Nat.not_lt_zero n)
  | succ f ih =>
    intro n h
    by_cases h10 : n < 10
    · refine ⟨?_, ?_, ?_⟩
      · intro c hc
        simp only [natDigitsGo, if_pos h10, List.mem_singleton] at hc
        subst hc
        exact isDig_digCh h10
      · simp only [natDigitsGo, if_pos h10]
        show 10 * 0 + digVal (digCh n) = n
        rw [digVal_digCh h10]
        omega
      · simp [natDigitsGo, if_pos h10]
    · have hlt : n / 10 < f := by omega
      obtain ⟨ha, hv, _⟩ := ih (n / 10) hlt
      refine ⟨?_, ?_, ?_⟩
      · intro c hc
        simp only [natDigitsGo, if_neg h10] at hc
        rcases List.mem_append.mp hc with h1 | h1
        · exact ha c h1
        · rw [List.mem_singleton] at h1
          subst h1
          exact isDig_digCh (Nat.mod_lt n (by omega))
      · simp only [natDigitsGo, if_neg h10]
        rw [digitsVal_append, hv, digVal_digCh (Nat.mod_lt n (by omega))]
        omega
      · simp [natDigitsGo, if_neg h10]

theorem natDigits_all_dig {n : Nat} {c : Char} (hc : c ∈ natDigits n) : isDig c = true :=
  (natDigitsGo_spec (n + 1) n (Nat.lt_succ_self n)).1 c hc

theorem digitsVal_natDigits (n : Nat) : digitsVal (natDigits n) = n :=
  (natDigitsGo_spec (n + 1) n (Nat.lt_succ_self n)).2.1

theorem natDigits_ne_nil (n : Nat) : natDigits n ≠ [] :=
  (natDigitsGo_spec (n + 1) n (Nat.lt_succ_self n)).2.2

theorem not_mem_natDigits {c : Char} (h : isDig c = false) (n : Nat) : c ∉ natDigits n := by
  intro hm
  rw [natDigits_all_dig hm] at h
  cases h

theorem takeWhile_all {p : Char → Bool} :
    ∀ {l : List Char}, (∀ c ∈ l, p c = true) → l.takeWhile p = l := by
  intro l
  induction l with
  | nil => intro; rfl
  | cons x r ih =>
    intro h
    have hx := h x (List.mem_cons_self x r)
    simp only [List.takeWhile_cons, hx, if_true]
    rw [ih (fun c hc => h c (List.mem_cons_of_mem _ hc))]

theorem dropWhile_all {p : Char → Bool} :
    ∀ {l : List Char}, (∀ c ∈ l, p c = true) → l.dropWhile p = [] := by
  intro l
  induction l with
  | nil => intro; rfl
  | cons x r ih =>
    intro h
    have hx := h x (List.mem_cons_self x r)
    simp only [List.dropWhile_cons, hx, if_true]
    exact ih (fun c hc => h c (List.mem_cons_of_mem _ hc))

theorem idxOf?_eq_none {c : Char} : ∀ {l : List Char}, c ∉ l → idxOf? c l = none := by
  intro l
  induction l with
  | nil => intro; rfl
  | cons x r ih =>
    intro h
    have hx : ¬(x = c) := fun he => h (he ▸ List.mem_cons_self x r)
    have hr : c ∉ r := fun hm => h (List.mem_cons_of_mem _ hm)
    simp [idxOf?, hx, ih hr]

theorem idxOf?_append_cons {c : Char} :
    ∀ (l r : List Char), c ∉ l → idxOf? c (l ++ c :: r) = some l.length := by
  intro l
  induction l with
  | nil => intro r _; simp [idxOf?]
  | cons x t ih =>
    intro r h
    have hx : ¬(x = c) := fun he => h (he ▸ List.mem_cons_self x t)
    have ht : c ∉ t := fun hm => h (List.mem_cons_of_mem _ hm)
    simp [idxOf?, hx, ih r ht]

theorem scanFloat_all_digits (l : List Char) (hne : l ≠ [])
    (hall : ∀ c ∈ l, isDig c = true) :
    scanFloat l = some ((digitsVal l : Int), 0) := by
  obtain ⟨c, t, rfl⟩ := List.exists_cons_of_ne_nil hne
  have hc := hall c (List.mem_cons_self c t)
  have hcm : ¬(c = '-') := by intro he; subst he; cases hc
  have hcp : ¬(c = '+') := by intro he; subst he; cases hc
  unfold scanFloat
  simp only [List.head?_cons, Option.some.injEq]
  rw [if_neg hcm, if_neg (by simp [hcm, hcp] : ¬(c = '-' ∨ c = '+'))]
  rw [takeWhile_all hall, dropWhile_all hall]
  simp [digitsVal]

theorem contribDur_natDigits (n : Nat) (u : Int) :
    contribDur (natDigits n) u = (n : Int) * u := by
  unfold contribDur
  rw [scanFloat_all_digits (natDigits n) (natDigits_ne_nil n)
    (fun c hc => natDigits_all_dig hc), digitsVal_natDigits]
  simp [Int.tdiv_one]

theorem not_mem_digits_chunk {c u : Char} (hd : isDig c = false) (hne : c ≠ u) (n : Nat) :
    c ∉ natDigits n ++ [u] := by
  intro hm
  rcases List.mem_append.mp hm with h | h
  · exact not_mem_natDigits hd n h
  · rw [List.mem_singleton] at h
    exact hne h

theorem not_mem_append' {c : Char} {a b : List Char} (ha : c ∉ a) (hb : c ∉ b) :
    c ∉ a ++ b := by
  intro h
  rcases List.mem_append.mp h with h | h
  · exact ha h
  · exact hb h

theorem drop_len_succ_append (l r : List Char) (c : Char) :
    (l ++ c :: r).drop (l.length + 1) = r := by
  have h1 : l ++ c :: r = (l ++ [c]) ++ r := by simp
  have h2 : (l ++ [c]).length = l.length + 1 := by simp
  rw [h1, ← h2, List.drop_left]

/-- A unit block finding no unit letter contributes nothing. -/
theorem durStep_notMem {u : Char} (unitNs : Int) {l : List Char} (h : u ∉ l) :
    durStep u unitNs l = (0, l) := by
  unfold durStep
  rw [idxOf?_eq_none h]

/-- A unit block on `digits ++ unit :: rest` contributes the scanned
value times the unit and continues after the unit letter. -/
theorem durStep_chunk {u : Char} (hu : isDig u = false) (unitNs : Int) (n : Nat)
    (r : List Char) :
    durStep u unitNs (natDigits n ++ u :: r) = ((n : Int) * unitNs, r) := by
  unfold durStep
  rw [idxOf?_append_cons _ _ (not_mem_natDigits hu n)]
  simp only [List.take_left, drop_len_succ_append, contribDur_natDigits]

theorem parseDateUnits_dayChunk (n : Nat) :
    parseDateUnits (natDigits n ++ ['D']) = (n : Int) * nsPerDay := by
  have hnm : ∀ c : Char, isDig c = false → c ≠ 'D' → c ∉ natDigits n ++ ['D'] :=
    fun c hd hne => not_mem_digits_chunk hd hne n
  unfold parseDateUnits
  simp only [durStep_notMem _ (hnm 'Y' (by decide) (by decide)),
    durStep_notMem _ (hnm 'M' (by decide) (by decide)),
    durStep_notMem _ (hnm 'W' (by decide) (by decide)),
    durStep_chunk (u := 'D') (by decide) nsPerDay n []]
  ring

/-- Membership in one optional `digits ++ [unit]` chunk of the formatted
output. -/
theorem not_mem_ite_chunk {c u : Char} (hd : isDig c = false) (hne : c ≠ u) (n : Nat)
    {P : Prop} [Decidable P] :
    c ∉ (if P then ([] : List Char) else natDigits n ++ [u]) := by
  by_cases h : P
  · simp [h]
  · rw [if_neg h]
    exact not_mem_digits_chunk hd hne n

theorem durStep_sChunk (ss : Nat) :
    (durStep 'S' nsPerSecond
      (if ss = 0 then ([] : List Char) else natDigits ss ++ ['S'])).1
      = (ss : Int) * nsPerSecond := by
  by_cases h : ss = 0
  · subst h
    rw [if_pos rfl, durStep_notMem _ (List.not_mem_nil 'S')]
    simp
  · rw [if_neg h]
    have : natDigits ss ++ ['S'] = natDigits ss ++ 'S' :: [] := rfl
    rw [this, durStep_chunk (by decide) nsPerSecond ss []]

theorem durStep_msChunks (mm ss : Nat) :
    (durStep 'M' nsPerMinute
        ((if mm = 0 then ([] : List Char) else natDigits mm ++ ['M'])
          ++ (if ss = 0 then ([] : List Char) else natDigits ss ++ ['S']))).1
      + (durStep 'S' nsPerSecond
          (durStep 'M' nsPerMinute
            ((if mm = 0 then ([] : List Char) else natDigits mm ++ ['M'])
              ++ (if ss = 0 then ([] : List Char) else natDigits ss ++ ['S']))).2).1
      = (mm : Int) * nsPerMinute + (ss : Int) * nsPerSecond := by
  by_cases h : mm = 0
  · subst h
    rw [if_pos rfl]
    rw [List.nil_append,
      durStep_notMem _ (not_mem_ite_chunk (by decide) (by decide) ss)]
    rw [durStep_sChunk ss]
    simp
  · rw [if_neg h]
    have hassoc :
        (natDigits mm ++ ['M'])
            ++ (if ss = 0 then ([] : List Char) else natDigits ss ++ ['S'])
          = natDigits mm
            ++ 'M' :: (if ss = 0 then ([] : List Char) else natDigits ss ++ ['S']) := by
      simp
    rw [hassoc, durStep_chunk (by decide) nsPerMinute mm _]
    rw [durStep_sChunk ss]

theorem parseTimeUnits_chunks (hh mm ss : Nat) :
    parseTimeUnits
      ((if hh = 0 then [] else natDigits hh ++ ['H'])
        ++ (if mm = 0 then [] else natDigits mm ++ ['M'])
        ++ (if ss = 0 then [] else natDigits ss ++ ['S']))
      = (hh : Int) * nsPerHour + (mm : Int) * nsPerMinute + (ss : Int) * nsPerSecond := by
  have hBC : ∀ c : Char, isDig c = false → c ≠ 'M' → c ≠ 'S' →
      c ∉ (if mm = 0 then ([] : List Char) else natDigits mm ++ ['M'])
          ++ (if ss = 0 then ([] : List Char) else natDigits ss ++ ['S']) :=
    fun c hd hm hs =>
      not_mem_append' (not_mem_ite_chunk hd hm mm) (not_mem_ite_chunk hd hs ss)
  rw [List.append_assoc]
  unfold parseTimeUnits
  by_cases h : hh = 0
  · subst h
    rw [if_pos rfl, List.nil_append,
      durStep_notMem _ (hBC 'H' (by decide) (by decide) (by decide))]
    have := durStep_msChunks mm ss
    simp only [] at this ⊢
    rw [zero_add, this]
    simp
  · rw [if_neg h]
    have hassoc :
        (natDigits hh ++ ['H'])
            ++ ((if mm = 0 then ([] : List Char) else natDigits mm ++ ['M'])
              ++ (if ss = 0 then ([] : List Char) else natDigits ss ++ ['S']))
          = natDigits hh
            ++ 'H' :: ((if mm = 0 then ([] : List Char) else natDigits mm ++ ['M'])
              ++ (if ss = 0 then ([] : List Char) else natDigits ss ++ ['S'])) := by
      simp
    rw [hassoc, durStep_chunk (by decide) nsPerHour hh _]
    have := durStep_msChunks mm ss
    simp only [] at this ⊢
    rw [add_assoc, this]
    ring

theorem isEmpty_false_of_ne_nil {l : List Char} (h : l ≠ []) : l.isEmpty = false := by
  cases l with
  | nil => exact absurd rfl h
  | cons a t => rfl

/-- The shape of every `formatDurChars` output for a positive duration:
an optional day chunk followed by an optional `T` part of optional
hour/minute/second chunks. -/
def fmtShape (dd hh mm sq : Nat) : List Char :=
  'P' :: ((if dd = 0 then [] else natDigits dd ++ ['D'])
    ++ (if hh = 0 ∧ mm = 0 ∧ sq = 0 then []
        else 'T' :: ((if hh = 0 then [] else natDigits hh ++ ['H'])
          ++ (if mm = 0 then [] else natDigits mm ++ ['M'])
          ++ (if sq = 0 then [] else natDigits sq ++ ['S']))))

theorem parseDurChars_fmtShape (dd hh mm sq : Nat)
    (hne : ¬(dd = 0 ∧ hh = 0 ∧ mm = 0 ∧ sq = 0)) :
    parseDurChars (fmtShape dd hh mm sq)
      = Except.ok ((dd : Int) * nsPerDay + ((hh : Int) * nsPerHour
          + (mm : Int) * nsPerMinute + (sq : Int) * nsPerSecond)) := by
  have hPd : (('P' : Char) = '-') = False := by simp
  by_cases hT : hh = 0 ∧ mm = 0 ∧ sq = 0
  · -- no time part; the day chunk must be present
    have hdd : ¬ dd = 0 := fun h => hne ⟨h, hT⟩
    obtain ⟨h1, h2, h3⟩ := hT
    subst h1; subst h2; subst h3
    unfold fmtShape
    simp only [hdd, and_self, if_true, if_false, List.append_nil, eq_self_iff_true,
      Bool.false_eq_true]
    unfold parseDurChars
    rw [if_neg (by simp : ¬ ('P' :: (natDigits dd ++ ['D'])).isEmpty = true)]
    simp only [List.head?_cons, Option.some.injEq, hPd, if_false]
    have hTno : idxOf? 'T' (natDigits dd ++ ['D']) = none :=
      idxOf?_eq_none (not_mem_digits_chunk (by decide) (by decide) dd)
    rw [isEmpty_false_of_ne_nil (by simp [natDigits_ne_nil dd])]
    simp only [hTno, Bool.false_eq_true, if_false,
      isEmpty_false_of_ne_nil (show natDigits dd ++ ['D'] ≠ [] by simp),
      List.isEmpty_nil, if_true, parseDateUnits_dayChunk]
    norm_num
  · -- time part present
    have hσ : (if hh = 0 then [] else natDigits hh ++ ['H'])
        ++ (if mm = 0 then [] else natDigits mm ++ ['M'])
        ++ (if sq = 0 then [] else natDigits sq ++ ['S']) ≠ [] := by
      intro hnil
      rw [List.append_eq_nil, List.append_eq_nil] at hnil
      obtain ⟨⟨e1, e2⟩, e3⟩ := hnil
      refine hT ⟨?_, ?_, ?_⟩
      · by_cases h : hh = 0
        · exact h
        · rw [if_neg h] at e1; simp [natDigits_ne_nil hh] at e1
      · by_cases h : mm = 0
        · exact h
        · rw [if_neg h] at e2; simp [natDigits_ne_nil mm] at e2
      · by_cases h : sq = 0
        · exact h
        · rw [if_neg h] at e3; simp [natDigits_ne_nil sq] at e3
    unfold fmtShape
    rw [if_neg hT]
    set σ := (if hh = 0 then [] else natDigits hh ++ ['H'])
      ++ (if mm = 0 then [] else natDigits mm ++ ['M'])
      ++ (if sq = 0 then [] else natDigits sq ++ ['S']) with hσdef
    set dc := (if dd = 0 then [] else natDigits dd ++ ['D']) with hdcdef
    have hTdc : 'T' ∉ dc := by
      rw [hdcdef]
      exact not_mem_ite_chunk (by decide) (by decide) dd
    have hTfind : idxOf? 'T' (dc ++ 'T' :: σ) = some dc.length :=
      idxOf?_append_cons _ _ hTdc
    unfold parseDurChars
    rw [if_neg (by simp : ¬ ('P' :: (dc ++ 'T' :: σ)).isEmpty = true)]
    simp only [List.head?_cons, Option.some.injEq, hPd, if_false]
    rw [isEmpty_false_of_ne_nil (show dc ++ 'T' :: σ ≠ [] by simp)]
    simp only [Bool.false_eq_true, if_false, hTfind, List.take_left, drop_len_succ_append]
    rw [isEmpty_false_of_ne_nil hσ]
    have htime : parseTimeUnits σ = (hh : Int) * nsPerHour + (mm : Int) * nsPerMinute
        + (sq : Int) * nsPerSecond := by
      rw [hσdef]
      exact parseTimeUnits_chunks hh mm sq
    by_cases hdd : dd = 0
    · rw [hdcdef, if_pos hdd]
      simp only [List.isEmpty_nil, if_true, Bool.false_eq_true, if_false, htime]
      subst hdd
      norm_num
    · rw [hdcdef, if_neg hdd]
      simp only [isEmpty_false_of_ne_nil (show natDigits dd ++ ['D'] ≠ [] by simp),
        Bool.false_eq_true, if_false, parseDateUnits_dayChunk, htime]

theorem intDigits_nonneg {i : Int} (h : 0 ≤ i) : intDigits i = natDigits i.toNat := by
  unfold intDigits
  rw [if_neg (not_lt.mpr h)]
  congr 1
  omega

theorem fmtF0_exact (a b : Int) (hb : 0 < b) (ha : 0 ≤ a) (hmod : a % b = 0) :
    fmtF0 a b = natDigits (a / b).toNat := by
  unfold fmtF0
  simp only [hmod]
  rw [if_pos (by omega : 2 * (0 : Int) < b)]
  exact intDigits_nonneg (Int.ediv_nonneg ha (le_of_lt hb))

theorem formatDurChars_shape (d : Int) (hpos : 0 < d) (hs : d % nsPerSecond = 0) :
    formatDurChars d
      = fmtShape (d / nsPerDay).toNat (d % nsPerDay / nsPerHour).toNat
          (d % nsPerDay % nsPerHour / nsPerMinute).toNat
          (d % nsPerDay % nsPerHour % nsPerMinute / nsPerSecond).toNat := by
  simp only [nsPerSecond] at hs
  simp only [formatDurChars, fmtShape, nsPerSecond, nsPerMinute, nsPerHour, nsPerDay]
  rw [if_neg (by omega : ¬ d = 0)]
  rw [Int.tdiv_eq_ediv (by omega : (0:Int) ≤ d) (by decide : (0:Int) ≤ 86400000000000)]
  have hd1 : (if 0 < d / 86400000000000 then d - d / 86400000000000 * 86400000000000 else d)
      = d % 86400000000000 := by
    split <;> omega
  rw [hd1]
  rw [Int.tdiv_eq_ediv (by omega : (0:Int) ≤ d % 86400000000000)
    (by decide : (0:Int) ≤ 3600000000000)]
  have hd2 : (if 0 < d % 86400000000000 / 3600000000000 then
        d % 86400000000000 - d % 86400000000000 / 3600000000000 * 3600000000000
      else d % 86400000000000)
      = d % 86400000000000 % 3600000000000 := by
    split <;> omega
  rw [hd2]
  rw [Int.tdiv_eq_ediv (by omega : (0:Int) ≤ d % 86400000000000 % 3600000000000)
    (by decide : (0:Int) ≤ 60000000000)]
  have hd3 : (if 0 < d % 86400000000000 % 3600000000000 / 60000000000 then
        d % 86400000000000 % 3600000000000
          - d % 86400000000000 % 3600000000000 / 60000000000 * 60000000000
      else d % 86400000000000 % 3600000000000)
      = d % 86400000000000 % 3600000000000 % 60000000000 := by
    split <;> omega
  rw [hd3]
  rw [fmtF0_exact _ _ (by decide : (0:Int) < 1000000000)
    (by omega : (0:Int) ≤ d % 86400000000000 % 3600000000000 % 60000000000) (by omega)]
  rw [intDigits_nonneg (show (0:Int) ≤ d / 86400000000000 by omega)]
  rw [intDigits_nonneg (show (0:Int) ≤ d % 86400000000000 / 3600000000000 by omega)]
  rw [intDigits_nonneg
    (show (0:Int) ≤ d % 86400000000000 % 3600000000000 / 60000000000 by omega)]
  have hB : ((d % 86400000000000 / 3600000000000).toNat = 0
      ∧ (d % 86400000000000 % 3600000000000 / 60000000000).toNat = 0
      ∧ (d % 86400000000000 % 3600000000000 % 60000000000 / 1000000000).toNat = 0)
      ↔ ¬(0 < d % 86400000000000) := by
    omega
  simp only [hB]
  have hA : ((d / 86400000000000).toNat = 0) ↔ ¬(0 < d / 86400000000000) := by omega
  have hC : ((d % 86400000000000 / 3600000000000).toNat = 0)
      ↔ ¬(0 < d % 86400000000000 / 3600000000000) := by omega
  have hD2 : ((d % 86400000000000 % 3600000000000 / 60000000000).toNat = 0)
      ↔ ¬(0 < d % 86400000000000 % 3600000000000 / 60000000000) := by omega
  have hE : ((d % 86400000000000 % 3600000000000 % 60000000000 / 1000000000).toNat = 0)
      ↔ ¬(0 < d % 86400000000000 % 3600000000000 % 60000000000) := by omega
  simp only [hA, hC, hD2, hE]
  simp only [ite_not]
  by_cases c1 : 0 < d / 86400000000000 <;> by_cases c3 : 0 < d % 86400000000000 <;>
    simp [c1, c3]

/-! ## LocalDateTime round-trip lemmas -/

theorem stripZone_concat_Z (l : List Char) : stripZone (l ++ ['Z']) = l := by
  unfold stripZone
  rw [List.getLast?_concat, if_pos rfl, List.dropLast_concat]

theorem lit_cons (c : Char) (r : List Char) : lit c (c :: r) = some r := by
  simp [lit]

theorem read2_pad2 {n : Nat} (hn : n < 100) (rest : List Char) :
    read2 (pad2 n ++ rest) = some (n, rest) := by
  have h1 : n / 10 < 10 := by omega
  have h2 : n % 10 < 10 := by omega
  show read2 (digCh (n / 10) :: digCh (n % 10) :: rest) = some (n, rest)
  simp only [read2]
  rw [if_pos (by rw [isDig_digCh h1, isDig_digCh h2]; rfl)]
  rw [digVal_digCh h1, digVal_digCh h2]
  congr 1
  congr 1
  omega

theorem read4_pad4 {y : Nat} (hy : y < 10000) (rest : List Char) :
    read4 (pad4 y ++ rest) = some (y, rest) := by
  have h1 : y / 1000 < 10 := by omega
  have h2 : y / 100 % 10 < 10 := by omega
  have h3 : y / 10 % 10 < 10 := by omega
  have h4 : y % 10 < 10 := by omega
  unfold pad4
  rw [if_pos hy]
  show read4 (digCh (y / 1000) :: digCh (y / 100 % 10) :: digCh (y / 10 % 10)
    :: digCh (y % 10) :: rest) = some (y, rest)
  simp only [read4]
  rw [if_pos (by rw [isDig_digCh h1, isDig_digCh h2, isDig_digCh h3, isDig_digCh h4]; rfl)]
  rw [digVal_digCh h1, digVal_digCh h2, digVal_digCh h3, digVal_digCh h4]
  congr 1
  congr 1
  omega

theorem scanDateTime_build {y mo dd h mi s : Nat} (rest : List Char)
    (hy : y < 10000) (hmo : mo < 100) (hdd : dd < 100) (hh : h < 100) (hmi : mi < 100)
    (hs : s < 100) :
    scanDateTime (pad4 y ++ '-' :: (pad2 mo ++ '-' :: (pad2 dd ++ 'T' :: (pad2 h
      ++ ':' :: (pad2 mi ++ ':' :: (pad2 s ++ rest))))))
      = some ((y, mo, dd, h, mi, s), rest) := by
  unfold scanDateTime
  simp only [read4_pad4 hy, lit_cons, read2_pad2 hmo, read2_pad2 hdd, read2_pad2 hh,
    read2_pad2 hmi, read2_pad2 hs, Option.bind_eq_bind, Option.bind_some, Option.some_bind]
  rfl

theorem digitsVal_pad9 {ns : Nat} (hns : ns < 1000000000) : digitsVal (pad9 ns) = ns := by
  have h1 : ns / 100000000 % 10 < 10 := by omega
  have h2 : ns / 10000000 % 10 < 10 := by omega
  have h3 : ns / 1000000 % 10 < 10 := by omega
  have h4 : ns / 100000 % 10 < 10 := by omega
  have h5 : ns / 10000 % 10 < 10 := by omega
  have h6 : ns / 1000 % 10 < 10 := by omega
  have h7 : ns / 100 % 10 < 10 := by omega
  have h8 : ns / 10 % 10 < 10 := by omega
  have h9 : ns % 10 < 10 := by omega
  unfold pad9 digitsVal
  simp only [List.foldl_cons, List.foldl_nil, digVal_digCh h1, digVal_digCh h2,
    digVal_digCh h3, digVal_digCh h4, digVal_digCh h5, digVal_digCh h6, digVal_digCh h7,
    digVal_digCh h8, digVal_digCh h9]
  omega

theorem pad9_all_dig (ns : Nat) : ∀ c ∈ pad9 ns, isDig c = true := by
  intro c hc
  unfold pad9 at hc
  simp only [List.mem_cons, List.not_mem_nil, or_false] at hc
  rcases hc with h | h | h | h | h | h | h | h | h <;>
    (subst h; exact isDig_digCh (Nat.mod_lt _ (by omega)))

theorem pad9_length (ns : Nat) : (pad9 ns).length = 9 := rfl

/-- Removing trailing zero digits divides the value by the matching
power of ten; the stripped list is empty only for the zero value. -/
theorem stripZeros_spec : ∀ (p : List Char),
    digitsVal (stripZeros p) * 10 ^ (p.length - (stripZeros p).length) = digitsVal p
    ∧ (stripZeros p).length ≤ p.length
    ∧ (digitsVal p ≠ 0 → stripZeros p ≠ []) := by
  intro p
  induction p using List.reverseRecOn with
  | nil => exact ⟨rfl, Nat.le_refl 0, fun h => absurd rfl h⟩
  | append_singleton l c ih =>
    obtain ⟨ihv, ihl, ihne⟩ := ih
    by_cases hc : c = '0'
    · subst hc
      have hstrip : stripZeros (l ++ ['0']) = stripZeros l := by
        unfold stripZeros
        rw [List.reverse_append]
        rfl
      have hval : digitsVal (l ++ ['0']) = 10 * digitsVal l := by
        rw [digitsVal_append]
        rfl
      refine ⟨?_, ?_, ?_⟩
      · rw [hstrip, hval, List.length_append]
        have hexp : l.length + 1 - (stripZeros l).length
            = (l.length - (stripZeros l).length) + 1 := by omega
        simp only [List.length_singleton, hexp, pow_succ]
        calc digitsVal (stripZeros l)
              * (10 ^ (l.length - (stripZeros l).length) * 10)
            = digitsVal (stripZeros l) * 10 ^ (l.length - (stripZeros l).length) * 10 := by
              ring
          _ = digitsVal l * 10 := by rw [ihv]
          _ = 10 * digitsVal l := by ring
      · rw [hstrip, List.length_append]
        simp only [List.length_singleton]
        omega
      · intro hv0
        rw [hstrip]
        exact ihne (fun h0 => hv0 (by rw [hval, h0]))
    · have hstrip : stripZeros (l ++ [c]) = l ++ [c] := by
        unfold stripZeros
        rw [List.reverse_append]
        show (List.dropWhile (fun x => x = '0') (c :: l.reverse)).reverse = l ++ [c]
        rw [List.dropWhile_cons_of_neg (by simpa using hc)]
        simp
      refine ⟨?_, ?_, fun _ => ?_⟩
      · rw [hstrip]
        simp
      · rw [hstrip]
      · rw [hstrip]
        simp

theorem stripZeros_all_dig {p : List Char} (hall : ∀ c ∈ p, isDig c = true) :
    ∀ c ∈ stripZeros p, isDig c = true := by
  intro c hc
  unfold stripZeros at hc
  rw [List.mem_reverse] at hc
  have := (List.dropWhile_sublist (l := p.reverse) (p := fun x => x = '0')).mem hc
  rw [List.mem_reverse] at this
  exact hall c this

theorem scanFrac_fracChars {ns : Nat} (hns : ns < 1000000000) :
    scanFrac (fracChars ns) = some (ns, []) := by
  by_cases h0 : ns = 0
  · subst h0
    rfl
  · unfold fracChars
    rw [if_neg h0]
    obtain ⟨hval, hlen, hne⟩ := stripZeros_spec (pad9 ns)
    rw [digitsVal_pad9 hns] at hval
    rw [pad9_length] at hlen
    have hne2 : stripZeros (pad9 ns) ≠ [] := hne (by rw [digitsVal_pad9 hns]; exact h0)
    obtain ⟨c, q, hq⟩ := List.exists_cons_of_ne_nil hne2
    have hall : ∀ x ∈ stripZeros (pad9 ns), isDig x = true :=
      stripZeros_all_dig (pad9_all_dig ns)
    rw [hq]
    have hcdig : isDig c = true := hall c (hq ▸ List.mem_cons_self c q)
    show scanFrac ('.' :: c :: q) = some (ns, [])
    simp only [scanFrac]
    rw [if_pos hcdig]
    have hall2 : ∀ x ∈ c :: q, isDig x = true := fun x hx => hall x (hq ▸ hx)
    rw [takeWhile_all hall2]
    have hlen2 : (c :: q).length ≤ 9 := by rw [← hq]; exact hlen
    rw [List.take_of_length_le hlen2, List.drop_length]
    congr 1
    congr 1
    have : digitsVal (c :: q) * 10 ^ (9 - (c :: q).length) = ns := by
      rw [← hq]
      exact hval
    exact this

theorem daysInMonth_le (y : Int) (m : Nat) : daysInMonth y m ≤ 31 := by
  unfold daysInMonth
  split
  · split <;> omega
  · split <;> omega

example : durationPatternMatch "-PT15M".toList = true := by decide
example : durationPatternMatch "P1W".toList = true := by decide
example : durationPatternMatch "P1.5DT0.5H".toList = true := by decide
example : durationPatternMatch "P3DT4H59M12.5S".toList = true := by decide
example : durationPatternMatch "P1X".toList = false := by decide
example : durationPatternMatch "1D".toList = false := by decide
example : durationPatternMatch "--P1D".toList = false := by decide

example : urlParseOk "https://example.com/meet?id=1#top" = true := by decide
example : urlParseOk "mailto:user@example.com" = true := by decide
example : urlParseOk "http://[::1]:8080/x" = true := by decide
example : urlParseOk "relative/path" = true := by decide
example : urlParseOk "%zz" = false := by decide
example : urlParseOk ":" = false := by decide
example : urlParseOk "http://exa mple.com/" = false := by decide
example : urlParseOk "http://h/%zz" = false := by decide
example : urlParseOk "http://h#f%zz" = false := by decide
example : urlParseOk "a:b/c:d" = true := by decide

example : parseISO8601Duration "PT1H" = Except.ok 3600000000000 := by decide
example : parseISO8601Duration "-PT1H" = Except.ok (-3600000000000) := by decide
example : formatISO8601Duration (-3600000000000) = "P" := by decide
example : parseISO8601Duration "P" = Except.ok 0 := by decide
example : parseISO8601Duration "PXYZ" = Except.ok 0 := by decide
example : parseISO8601Duration "P1XD" = Except.ok 86400000000000 := by decide
example : parseISO8601Duration "P1DT2H3M4S" = Except.ok 93784000000000 := by decide
example : formatISO8601Duration 93784000000000 = "P1DT2H3M4S" := by decide
example : parseISO8601Duration "PT0.5H" = Except.ok 1800000000000 := by decide
example : formatISO8601Duration 0 = "PT0S" := by decide
example : parseISO8601Duration "PT0S" = Except.ok 0 := by decide

/-! ## Claim theorems -/

/-- C6: in the iCal bridge the privacy value `private` always exports to
the `CONFIDENTIAL` classification marker, a `CONFIDENTIAL` marker always
imports to privacy `private`, exporting then importing `private`
restores `private`, and the mapping is non-bijective: `CONFIDENTIAL`
never round-trips to a distinct `confidential` value. -/
theorem c6_privacy_confidential_mapping :
    exportPrivacyToClass "private" = "CONFIDENTIAL"
    ∧ importClassToPrivacy "CONFIDENTIAL" = "private"
    ∧ importClassToPrivacy (exportPrivacyToClass "private") = "private"
    ∧ importClassToPrivacy "CONFIDENTIAL" ≠ "confidential" := by
  exact ⟨by decide, by decide, by decide, by decide⟩

/-- C7: the ROLE parameter of every exported ATTENDEE property is chosen
by the fixed priority table chair > optional > informational > default
(`REQ-PARTICIPANT`): exactly the single highest-priority role present in
the participant's role set is emitted. -/
theorem c7_attendee_role_priority (roles : List (String × Bool)) :
    (rolesLookup roles "chair" = true → exportAttendeeRole roles = "CHAIR")
    ∧ (rolesLookup roles "chair" = false → rolesLookup roles "optional" = true →
        exportAttendeeRole roles = "OPT-PARTICIPANT")
    ∧ (rolesLookup roles "chair" = false → rolesLookup roles "optional" = false →
        rolesLookup roles "informational" = true →
        exportAttendeeRole roles = "NON-PARTICIPANT")
    ∧ (rolesLookup roles "chair" = false → rolesLookup roles "optional" = false →
        rolesLookup roles "informational" = false →
        exportAttendeeRole roles = "REQ-PARTICIPANT")
    ∧ attendeeRoleParam (some roles) = some (exportAttendeeRole roles) := by
  refine ⟨?_, ?_, ?_, ?_, rfl⟩ <;> intros <;> simp_all [exportAttendeeRole]

/-- Witness for C7 at a participant holding both the chair and the
optional roles: only the highest-priority one (CHAIR) is emitted. -/
theorem c7_attendee_role_priority_witness :
    exportAttendeeRole [("chair", true), ("optional", true)] = "CHAIR" :=
  (c7_attendee_role_priority [("chair", true), ("optional", true)]).1 (by decide)

/-- C9: decoding the by-day token `-1FR` yields day `fr` with
nth-occurrence -1, and decoding `xx` fails with an error whose message
contains `invalid day`. -/
theorem c9_parse_nday_examples :
    ParseNDay "-1FR" = Except.ok ⟨"fr", some (-1)⟩
    ∧ ParseNDay "xx" = Except.error ("invalid day: xx")
    ∧ hasSubstr ("invalid day".toList) ("invalid day: xx".toList) = true := by
  exact ⟨by decide, by decide, by decide⟩

/-- C2 counterexample: a nil `LocalDateTime` does **not** behave as the
zero moment for `Before`: the zero moment is before 2020-01-02T03:04:05,
but a nil receiver compares `Before` as `false` against the same value. -/
theorem c2_nil_localdatetime_counterexample :
    ldtBefore (some (ldtTime none)) (some ⟨2020, 1, 2, 3, 4, 5, 6⟩) = true
    ∧ ldtBefore none (some ⟨2020, 1, 2, 3, 4, 5, 6⟩) = false := by
  exact ⟨by decide, by decide⟩

/-- C2 (amended): a nil `LocalDateTime` raises no error: `Time` returns
the zero moment and `IsZero` reports true, but `Equal` treats nil as
equal only to nil, and `Before`/`After` return `false` whenever either
operand is nil — a nil value therefore never compares before a later
non-nil value. -/
theorem c2_nil_localdatetime_amended (t : LocalDateTime) :
    ldtTime none = zeroMoment
    ∧ ldtIsZero none = true
    ∧ ldtEqual none none = true
    ∧ ldtEqual none (some t) = false
    ∧ ldtEqual (some t) none = false
    ∧ ldtBefore none (some t) = false
    ∧ ldtBefore (some t) none = false
    ∧ ldtAfter none (some t) = false
    ∧ ldtAfter (some t) none = false := by
  exact ⟨rfl, rfl, rfl, rfl, rfl, rfl, rfl, rfl, rfl⟩

/-- C3 counterexample: a batch in which the second component lacks its
identifier converts to an error for the whole batch — the first and the
third (well-formed) components are not returned. -/
theorem c3_parseall_counterexample :
    parseAllVEvents [⟨"uid-1", some "First"⟩, ⟨"", some "Broken"⟩, ⟨"uid-2", none⟩]
      = Except.error ("failed to convert event: event missing UID") := by
  decide

/-- C3 (amended): a structural mapping failure (missing UID) in any
component aborts the whole `ParseAll` batch: the conversion returns an
error and no events at all, well-formed sibling components included. -/
theorem c3_parseall_aborts_batch (l : List VEvent) (v : VEvent)
    (hv : v ∈ l) (huid : v.uid = "") :
    parseAllVEvents l = Except.error ("failed to convert event: event missing UID") := by
  induction l with
  | nil => cases hv
  | cons head tail ih =>
    by_cases hh : head.uid = ""
    · simp [parseAllVEvents, convertICalEventToJSCal, hh]
    · have hvt : v ∈ tail := by
        cases hv with
        | head => exact absurd huid hh
        | tail _ h => exact h
      simp [parseAllVEvents, convertICalEventToJSCal, hh, ih hvt]

/-- Witness for C3: a two-component batch whose second component lacks
its UID converts to the batch-level error. -/
theorem c3_parseall_aborts_batch_witness :
    parseAllVEvents [⟨"uid-1", some "First"⟩, ⟨"", none⟩]
      = Except.error ("failed to convert event: event missing UID") :=
  c3_parseall_aborts_batch _ ⟨"", none⟩ (by decide) rfl

theorem mem_enumFrom_of_mem {α : Type} {a : α} :
    ∀ {l : List α} (k : Nat), a ∈ l → ∃ i, (i, a) ∈ l.enumFrom k := by
  intro l
  induction l with
  | nil => intro k h; cases h
  | cons x xs ih =>
    intro k h
    cases h with
    | head => exact ⟨k, by simp [List.enumFrom]⟩
    | tail _ h2 =>
      obtain ⟨i, hi⟩ := ih (k + 1) h2
      exact ⟨i, by simp only [List.enumFrom]; exact List.mem_cons_of_mem _ hi⟩

theorem validateRecurrenceRule_both_mem (p : String) (rr : RecurrenceRule)
    (hc : rr.count.isSome = true) (hu : rr.until_.isSome = true) :
    (⟨p, "cannot have both count and until"⟩ : ValidationError)
      ∈ validateRecurrenceRule p (some rr) := by
  show (⟨p, "cannot have both count and until"⟩ : ValidationError)
    ∈ (vrrBasicErrors p rr
        ++ (if rr.count.isSome ∧ rr.until_.isSome then
              [⟨p, "cannot have both count and until"⟩]
            else []))
      ++ vrrTailErrors p rr
  refine List.mem_append_left _ (List.mem_append_right _ ?_)
  simp [hc, hu]

theorem eventValidate_rule_both_mem (e : Event) (rr : RecurrenceRule)
    (hmem : rr ∈ e.recurrenceRules)
    (hc : rr.count.isSome = true) (hu : rr.until_.isSome = true) :
    ∃ err ∈ eventValidate e, err.message = "cannot have both count and until" := by
  obtain ⟨i, hi⟩ := mem_enumFrom_of_mem 0 hmem
  refine ⟨⟨s!"recurrenceRules[{i}]", "cannot have both count and until"⟩, ?_, rfl⟩
  have hin : (⟨s!"recurrenceRules[{i}]", "cannot have both count and until"⟩ : ValidationError)
      ∈ eventRuleErrors e := by
    unfold eventRuleErrors
    rw [List.mem_flatten]
    refine ⟨validateRecurrenceRule s!"recurrenceRules[{i}]" (some rr), ?_, ?_⟩
    · exact List.mem_map_of_mem _ hi
    · exact validateRecurrenceRule_both_mem _ rr hc hu
  unfold eventValidate
  exact List.mem_append_right _ hin

/-- C4: a `RecurrenceRule` with both `count` and `until` set always fails
validation — `validateRecurrenceRule` emits a violation whose message is
`cannot have both count and until`, and `Event.Validate` on any event
containing such a rule returns a non-empty violation list carrying the
same message. -/
theorem c4_count_until_mutual_exclusion (p : String) (rr : RecurrenceRule) (e : Event)
    (hc : rr.count.isSome = true) (hu : rr.until_.isSome = true)
    (hmem : rr ∈ e.recurrenceRules) :
    ((⟨p, "cannot have both count and until"⟩ : ValidationError)
        ∈ validateRecurrenceRule p (some rr))
    ∧ validateRecurrenceRule p (some rr) ≠ []
    ∧ (∃ err ∈ eventValidate e, err.message = "cannot have both count and until")
    ∧ eventValidate e ≠ [] := by
  have h1 := validateRecurrenceRule_both_mem p rr hc hu
  have h2 := eventValidate_rule_both_mem e rr hmem hc hu
  refine ⟨h1, List.ne_nil_of_mem h1, h2, ?_⟩
  obtain ⟨err, hm, _⟩ := h2
  exact List.ne_nil_of_mem hm

/-- A rule with both `count` and `until`, and an event containing it. -/
def ruleBothSet : RecurrenceRule :=
  ⟨"RecurrenceRule", "daily", none, none, none, none, [], some 5,
   some ⟨2025, 3, 31, 23, 59, 59, 0⟩⟩

def eventBothSet : Event :=
  { blankEvent with uid := "ev-1", start := some zeroMoment, recurrenceRules := [ruleBothSet] }

/-- Witness for C4 at a concrete rule and event. -/
theorem c4_count_until_mutual_exclusion_witness :
    ((⟨"recurrenceRules[0]", "cannot have both count and until"⟩ : ValidationError)
        ∈ validateRecurrenceRule "recurrenceRules[0]" (some ruleBothSet))
    ∧ validateRecurrenceRule "recurrenceRules[0]" (some ruleBothSet) ≠ []
    ∧ (∃ err ∈ eventValidate eventBothSet, err.message = "cannot have both count and until")
    ∧ eventValidate eventBothSet ≠ [] :=
  c4_count_until_mutual_exclusion "recurrenceRules[0]" ruleBothSet eventBothSet rfl rfl
    (by decide)

theorem groupSelfRefLoop_mem (guid : String) (entry : CalObj) :
    ∀ (entries : List (Option CalObj)) (i : Nat),
      some entry ∈ entries → entry.getUID = guid →
      ∃ er ∈ groupSelfRefLoop guid i entries, er.message = "group cannot contain itself" := by
  intro entries
  induction entries with
  | nil => intro i h _; cases h
  | cons x rest ih =>
    intro i hmem huid
    cases hmem with
    | head =>
      refine ⟨⟨s!"entries[{i}]", "group cannot contain itself"⟩, ?_, rfl⟩
      simp [groupSelfRefLoop, huid]
    | tail _ h2 =>
      obtain ⟨er, hm, hmsg⟩ := ih (i + 1) h2 huid
      cases x with
      | none => exact ⟨er, by simpa [groupSelfRefLoop] using hm, hmsg⟩
      | some y =>
        refine ⟨er, ?_, hmsg⟩
        show er ∈ groupSelfRefLoop guid i (some y :: rest)
        simp only [groupSelfRefLoop]
        exact List.mem_append_right _ hm

/-- C8: a `Group` whose entry list contains an entry sharing the Group's
own identifier fails validation, the violation list containing an error
whose message contains `cannot contain itself`.  (The hypothesis that no
entry is a nil interface value excludes the path on which the Go code
would panic instead.) -/
theorem c8_group_self_containment (g : Group) (entry : CalObj)
    (hmem : some entry ∈ g.entries) (huid : entry.getUID = g.uid)
    (hnonil : g.entries.contains none = false) :
    ∃ errs, groupValidate g = some errs ∧ errs ≠ []
      ∧ ∃ er ∈ errs, hasSubstr ("cannot contain itself".toList) (er.message.toList) = true := by
  obtain ⟨er, hm, hmsg⟩ := groupSelfRefLoop_mem g.uid entry g.entries 0 hmem huid
  have hnm : (none : Option CalObj) ∉ g.entries := by simpa using hnonil
  have hb : er ∈ groupValidateBody g := by
    unfold groupValidateBody
    repeat first
      | exact hm
      | refine List.mem_append_right _ ?_
  refine ⟨groupValidateBody g, by simp [groupValidate, hnm], List.ne_nil_of_mem hb,
    er, hb, ?_⟩
  rw [hmsg]
  decide

/-- A group that lists an entry carrying its own identifier. -/
def selfEvent : Event := { blankEvent with uid := "grp-1", start := some zeroMoment }

def selfGroup : Group :=
  { type_ := "Group", uid := "grp-1", title := none, description := none, sequence := none,
    color := none, links := [], entries := [some (CalObj.event selfEvent)] }

/-- Witness for C8 at a concrete self-containing group. -/
theorem c8_group_self_containment_witness :
    ∃ errs, groupValidate selfGroup = some errs ∧ errs ≠ []
      ∧ ∃ er ∈ errs, hasSubstr ("cannot contain itself".toList) (er.message.toList) = true :=
  c8_group_self_containment selfGroup (CalObj.event selfEvent) (by decide) rfl (by decide)

/-- C10 counterexample: the malformed day payload `1X` in `P1XD` is not
ignored — Go scans its numeric prefix `1`, so the literal contributes a
full day rather than zero. -/
theorem c10_malformed_payload_counterexample :
    parseISO8601Duration "P1XD" = Except.ok 86400000000000
    ∧ (86400000000000 : Int) ≠ 0 := by
  exact ⟨by decide, by decide⟩

theorem parseDurChars_ok_shape (cs : List Char) (r : List Char)
    (h : cs = 'P' :: r ∨ cs = '-' :: 'P' :: r) :
    ∃ d, parseDurChars cs = Except.ok d := by
  cases h with
  | inl he =>
    subst he
    cases hres : parseDurChars ('P' :: r) with
    | ok d => exact ⟨d, rfl⟩
    | error msg =>
      by_cases hre : r.isEmpty <;> simp [parseDurChars, hre] at hres
  | inr he =>
    subst he
    cases hres : parseDurChars ('-' :: 'P' :: r) with
    | ok d => exact ⟨d, rfl⟩
    | error msg =>
      by_cases hre : r.isEmpty <;> simp [parseDurChars, hre] at hres

/-- C10 (amended): `parseISO8601Duration` fails only on the empty string
and on strings not beginning with `P` after the optional sign; every
string beginning with `P` or `-P` parses without error, and a unit
payload from which no leading number can be scanned contributes zero
(`PXYZ` parses to the zero duration) — but a malformed payload with a
scannable numeric prefix contributes that number times the unit. -/
theorem c10_duration_error_cases (s : String)
    (h : ∃ r, s.toList = 'P' :: r ∨ s.toList = '-' :: 'P' :: r) :
    (∃ d, parseISO8601Duration s = Except.ok d)
    ∧ parseISO8601Duration "" = Except.error ("invalid ISO 8601 duration: empty string")
    ∧ parseISO8601Duration "PXYZ" = Except.ok 0
    ∧ (∀ (cs : List Char) (msg : String), parseDurChars cs = Except.error msg →
        cs = [] ∨ ∀ r, cs ≠ 'P' :: r ∧ cs ≠ '-' :: 'P' :: r) := by
  obtain ⟨r, hr⟩ := h
  refine ⟨?_, by decide, by decide, ?_⟩
  · rw [parseISO8601Duration]
    cases hr with
    | inl he => exact parseDurChars_ok_shape _ r (by rw [he]; exact Or.inl rfl)
    | inr he => exact parseDurChars_ok_shape _ r (by rw [he]; exact Or.inr rfl)
  · intro cs msg hmsg
    cases cs with
    | nil => exact Or.inl rfl
    | cons c rest =>
      right
      intro r2
      constructor
      · intro he
        obtain ⟨d, hd⟩ := parseDurChars_ok_shape _ r2 (Or.inl he)
        rw [hd] at hmsg
        cases hmsg
      · intro he
        obtain ⟨d, hd⟩ := parseDurChars_ok_shape _ r2 (Or.inr he)
        rw [hd] at hmsg
        cases hmsg

/-- C1 counterexample: the negative literal `-PT1H` parses to minus one
hour, but formatting that value yields `P`, which denotes the zero
duration — the round trip loses the sign entirely. -/
theorem c1_duration_roundtrip_counterexample :
    parseISO8601Duration "-PT1H" = Except.ok (-3600000000000)
    ∧ formatISO8601Duration (-3600000000000) = "P"
    ∧ parseISO8601Duration "P" = Except.ok 0
    ∧ (0 : Int) ≠ -3600000000000 := by
  exact ⟨by decide, by decide, by decide, by decide⟩

/-- C1 (amended): for every duration literal whose parsed value is a
nonnegative whole number of seconds (within the Go int64 range),
formatting the parsed duration yields a literal that parses back to the
same total elapsed time. -/
theorem c1_duration_roundtrip_amended (s : String) (d : Int)
    (hp : parseISO8601Duration s = Except.ok d)
    (h0 : 0 ≤ d) (hsec : d % nsPerSecond = 0) (hrange : d < 2 ^ 63) :
    parseISO8601Duration (formatISO8601Duration d) = Except.ok d := by
  rcases eq_or_lt_of_le h0 with hz | hpos
  · subst hz
    decide
  · rw [formatISO8601Duration, parseISO8601Duration]
    have hlist : (String.mk (formatDurChars d)).toList = formatDurChars d := rfl
    rw [hlist, formatDurChars_shape d hpos hsec]
    have hne2 : ¬((d / nsPerDay).toNat = 0 ∧ (d % nsPerDay / nsPerHour).toNat = 0
        ∧ (d % nsPerDay % nsPerHour / nsPerMinute).toNat = 0
        ∧ (d % nsPerDay % nsPerHour % nsPerMinute / nsPerSecond).toNat = 0) := by
      simp only [nsPerSecond, nsPerMinute, nsPerHour, nsPerDay] at hsec ⊢
      omega
    rw [parseDurChars_fmtShape _ _ _ _ hne2]
    congr 1
    simp only [nsPerSecond, nsPerMinute, nsPerHour, nsPerDay] at hsec ⊢
    omega

/-- Witness for C1 at the literal `P1DT2H3M4S`. -/
theorem c1_duration_roundtrip_amended_witness :
    parseISO8601Duration (formatISO8601Duration 93784000000000)
      = Except.ok 93784000000000 :=
  c1_duration_roundtrip_amended "P1DT2H3M4S" 93784000000000 (by decide) (by decide)
    (by decide) (by decide)

/-- C5 counterexample: a valid LocalDateTime in year 10000 serializes to
a five-digit-year string that none of the four parse layouts accepts, so
the round trip fails with a parse error instead of restoring the value. -/
theorem c5_ldt_roundtrip_counterexample :
    (⟨10000, 1, 1, 0, 0, 0, 0⟩ : LocalDateTime).Valid
    ∧ ldtString ⟨10000, 1, 1, 0, 0, 0, 0⟩ = "10000-01-01T00:00:00"
    ∧ ParseLocalDateTime "10000-01-01T00:00:00"
        = Except.error ("invalid LocalDateTime format: 10000-01-01T00:00:00") := by
  exact ⟨by decide, by decide, by decide⟩

/-- C5 (amended): for every LocalDateTime value with canonical wall-clock
fields and a four-digit year (0–9999), parsing the serialized string form
restores the value field-for-field, nanoseconds included. -/
theorem c5_ldt_roundtrip_amended (t : LocalDateTime) (hv : t.Valid)
    (hy0 : 0 ≤ t.year) (hy4 : t.year ≤ 9999) :
    ParseLocalDateTime (ldtString t) = Except.ok t := by
  obtain ⟨y, mo, dd, h, mi, s, ns⟩ := t
  obtain ⟨hmo1, hmo2, hdd1, hdd2, hh2, hmi2, hs2, hns2⟩ := hv
  dsimp only at hy0 hy4 hmo1 hmo2 hdd1 hdd2 hh2 hmi2 hs2 hns2
  have hdd31 : dd ≤ 31 := le_trans hdd2 (daysInMonth_le y mo)
  have hmo100 : mo < 100 := by omega
  have hdd100 : dd < 100 := by omega
  have hh100 : h < 100 := by omega
  have hmi100 : mi < 100 := by omega
  have hs100 : s < 100 := by omega
  have hns9 : ns < 1000000000 := by omega
  have hy10000 : y.toNat < 10000 := by omega
  have hycast : ((y.toNat : Int)) = y := by omega
  have hyear : yearChars y = pad4 y.toNat := by
    unfold yearChars
    rw [if_neg (by omega : ¬ y < 0)]
    congr 1
    omega
  have hbase : ldtStringChars ⟨y, mo, dd, h, mi, s, ns⟩
      = pad4 y.toNat ++ '-' :: (pad2 mo ++ '-' :: (pad2 dd ++ 'T' :: (pad2 h
        ++ ':' :: (pad2 mi ++ ':' :: (pad2 s ++ fracChars ns))))) := by
    unfold ldtStringChars fmtRFC3339NanoUTC
    dsimp only
    rw [hyear, stripZone_concat_Z]
    simp [List.append_assoc]
  set B := pad4 y.toNat ++ '-' :: (pad2 mo ++ '-' :: (pad2 dd ++ 'T' :: (pad2 h
    ++ ':' :: (pad2 mi ++ ':' :: (pad2 s ++ fracChars ns))))) with hBdef
  have hscan : scanDateTime B = some ((y.toNat, mo, dd, h, mi, s), fracChars ns) := by
    have := scanDateTime_build (fracChars ns) hy10000 hmo100 hdd100 hh100 hmi100 hs100
    rw [← hBdef] at this
    exact this
  have hmk : mkValidated y.toNat mo dd h mi s ns = some ⟨y, mo, dd, h, mi, s, ns⟩ := by
    unfold mkValidated
    rw [if_pos ⟨hmo1, hmo2, hdd1, by rw [hycast]; exact hdd2, hh2, hmi2, hs2⟩]
    rw [hycast]
  have hRFC : parseLayoutRFC3339 B = none := by
    unfold parseLayoutRFC3339
    simp only [hscan, Option.bind_eq_bind, Option.some_bind]
    by_cases hns0 : ns = 0
    · subst hns0
      rfl
    · have hfq : ∃ q, fracChars ns = '.' :: q := by
        unfold fracChars
        rw [if_neg hns0]
        exact ⟨_, rfl⟩
      obtain ⟨q, hq⟩ := hfq
      rw [hq]
      simp [scanZone, show ('.' : Char) ≠ 'Z' by decide,
        show ¬(('.' : Char) = '+' ∨ ('.' : Char) = '-') by decide]
  have hNano : parseLayoutRFC3339Nano B = none := by
    unfold parseLayoutRFC3339Nano
    simp only [hscan, Option.bind_eq_bind, Option.some_bind, scanFrac_fracChars hns9]
    rfl
  have hcond : ¬((!B.contains 'Z' && !B.contains '+' && !B.contains '-'
      && B.contains 'T') = true) := by
    have hm : ('-' : Char) ∈ B := by
      rw [hBdef]
      simp
    simp [hm]
  show parseLDTChars (ldtStringChars ⟨y, mo, dd, h, mi, s, ns⟩)
    = Except.ok ⟨y, mo, dd, h, mi, s, ns⟩
  rw [hbase]
  unfold parseLDTChars
  rw [if_neg hcond]
  by_cases hns0 : ns = 0
  · have hPlain : parseLayoutPlain B = some ⟨y, mo, dd, h, mi, s, ns⟩ := by
      unfold parseLayoutPlain
      simp only [hscan, Option.bind_eq_bind, Option.some_bind]
      subst hns0
      have hfe : fracChars 0 = [] := by decide
      simp [hfe, hmk]
    simp only [hRFC, hNano, hPlain, Option.none_orElse, Option.some_orElse]
  · have hPlain : parseLayoutPlain B = none := by
      unfold parseLayoutPlain
      simp only [hscan, Option.bind_eq_bind, Option.some_bind]
      have hfq : ∃ q, fracChars ns = '.' :: q := by
        unfold fracChars
        rw [if_neg hns0]
        exact ⟨_, rfl⟩
      obtain ⟨q, hq⟩ := hfq
      rw [hq]
      rfl
    have hFrac : parseLayoutPlainFrac B = some ⟨y, mo, dd, h, mi, s, ns⟩ := by
      unfold parseLayoutPlainFrac
      simp only [hscan, Option.bind_eq_bind, Option.some_bind, scanFrac_fracChars hns9]
      simpa using hmk
    simp only [hRFC, hNano, hPlain, hFrac, Option.none_orElse, Option.some_orElse]

/-- Witness for C5 at 2025-03-15T10:00:00.5 (half a second kept to
nanosecond granularity). -/
theorem c5_ldt_roundtrip_amended_witness :
    ParseLocalDateTime (ldtString ⟨2025, 3, 15, 10, 0, 0, 500000000⟩)
      = Except.ok ⟨2025, 3, 15, 10, 0, 0, 500000000⟩ :=
  c5_ldt_roundtrip_amended ⟨2025, 3, 15, 10, 0, 0, 500000000⟩ (by decide) (by decide)
    (by decide)

/-- Witness for C10 at `PXYZ`. -/
theorem c10_duration_error_cases_witness :
    (∃ d, parseISO8601Duration "PXYZ" = Except.ok d)
    ∧ parseISO8601Duration "" = Except.error ("invalid ISO 8601 duration: empty string")
    ∧ parseISO8601Duration "PXYZ" = Except.ok 0
    ∧ (∀ (cs : List Char) (msg : String), parseDurChars cs = Except.error msg →
        cs = [] ∨ ∀ r, cs ≠ 'P' :: r ∧ cs ≠ '-' :: 'P' :: r) :=
  c10_duration_error_cases "PXYZ" ⟨['X', 'Y', 'Z'], Or.inl (by decide)⟩

end JSCal
